import Mathlib

/-!
Verification development for the mentorfy document-ingestion pipeline.

Shallow embedding of the core pipeline modules:
  retry policy        (mentorfy/core/retry_policy.py)
  rate limiter        (mentorfy/core/rate_limiter.py)
  chunking service    (mentorfy/services/chunking_service.py)
  workers             (mentorfy/workers/{extraction,ingest_extract,chunking,kg}_worker.py)
  deletion helpers    (mentorfy/utils/deletion.py)
  pipeline helpers    (mentorfy/core/pipeline_helpers.py)

Python exceptions are modelled as records of class name, module, message and
an optional retry-after hint; fallible code returns Except; database tables
are lists of records threaded through pure state-passing functions; wall
clock timestamps are rationals supplied by the caller.
-/

namespace Mentorfy

/-- Model of a Python exception: class name, defining module, the str() of
the exception, and an optional retry_after attribute (rate-limit hint). -/
structure PyExn where
  name : String
  module : String := "builtins"
  msg : String := ""
  retryAfter : Option Nat := none
deriving Repr, DecidableEq

/-- Substring test on character lists: some tail of the haystack starts
with the needle. -/
def listContainsSub (needle hay : List Char) : Bool :=
  hay.tails.any (fun t => needle.isPrefixOf t)

/-- Substring test on strings, mirroring the Python `in` operator. -/
def strContainsSub (hay needle : String) : Bool :=
  listContainsSub needle.toList hay.toList

namespace RetryPolicy

/-- RETRY_DELAYS from retry_policy.py: 1min, 5min, 15min. -/
def RETRY_DELAYS : List Nat := [60, 300, 900]

/-- MAX_RETRIES from retry_policy.py. -/
def MAX_RETRIES : Nat := 3

/-- PHASE_BASE_EXECUTION_TIME from retry_policy.py. -/
def PHASE_BASE_EXECUTION_TIME (phase : String) : Nat :=
  if phase == "extraction" then 600
  else if phase == "chunking" then 300
  else if phase == "kg_ingest" then 1200
  else 600

/-- RETRYABLE_ERRORS set from retry_policy.py. -/
def RETRYABLE_ERRORS : List String :=
  ["ConnectionError", "Timeout", "ReadTimeout", "TimeoutError", "HTTPError",
   "APIError", "RateLimitError", "AnthropicRateLimitError", "ServiceUnavailable",
   "httpx.ReadTimeout", "httpcore.ReadTimeout", "httpx.TimeoutException",
   "httpcore.TimeoutException", "PartialIngestError"]

/-- NON_RETRYABLE_ERRORS set from retry_policy.py. -/
def NON_RETRYABLE_ERRORS : List String :=
  ["ValidationError", "ValueError", "FileNotFoundError", "InvalidFileFormat",
   "AuthenticationError", "PermissionDenied"]

/-- The PartialIngestError exception class defined in retry_policy.py. -/
def partialIngestError (msg : String) : PyExn :=
  { name := "PartialIngestError", module := "mentorfy.core.retry_policy", msg := msg }

/-- full_error_type computation in is_retryable_error: module-qualified name
unless the module is builtins. -/
def fullErrorType (e : PyExn) : String :=
  if e.module == "builtins" then e.name else e.module ++ "." ++ e.name

/-- Truthiness-guarded 4xx check from is_retryable_error:
status_code and 400 <= status_code < 500 and status_code != 429. -/
def clientError4xx (statusCode : Option Nat) : Bool :=
  match statusCode with
  | some sc => sc != 0 && 400 ≤ sc && sc < 500 && sc != 429
  | none => false

/-- Truthiness-guarded 5xx check from is_retryable_error:
status_code and status_code >= 500. -/
def serverError5xx (statusCode : Option Nat) : Bool :=
  match statusCode with
  | some sc => sc != 0 && 500 ≤ sc
  | none => false

/-- is_retryable_error from retry_policy.py, branch for branch:
non-retryable names, then 4xx-except-429, then timeout substring, then
retryable names / 5xx, then the conservative default (retry). -/
def isRetryableError (e : PyExn) (statusCode : Option Nat := none) : Bool :=
  if NON_RETRYABLE_ERRORS.contains e.name
      || NON_RETRYABLE_ERRORS.contains (fullErrorType e) then
    false
  else if clientError4xx statusCode then
    false
  else if strContainsSub e.name.toLower "timeout"
      || strContainsSub e.msg.toLower "timeout" then
    true
  else if RETRYABLE_ERRORS.contains e.name
      || RETRYABLE_ERRORS.contains (fullErrorType e)
      || serverError5xx statusCode then
    true
  else
    true

/-- get_retry_delay from retry_policy.py: a truthy retry_after hint wins,
otherwise index into RETRY_DELAYS, capped at the last delay. -/
def getRetryDelay (retryCount : Nat) (error : Option PyExn := none) : Nat :=
  match error with
  | some e =>
    match e.retryAfter with
    | some ra =>
      if ra != 0 then ra
      else if retryCount ≥ RETRY_DELAYS.length then 900 else RETRY_DELAYS.getD retryCount 900
    | none =>
      if retryCount ≥ RETRY_DELAYS.length then 900 else RETRY_DELAYS.getD retryCount 900
  | none =>
    if retryCount ≥ RETRY_DELAYS.length then 900 else RETRY_DELAYS.getD retryCount 900

/-- get_phase_timeout from retry_policy.py:
base execution time + total retry delays + 5 min safety buffer. -/
def getPhaseTimeout (phase : String) : Nat :=
  PHASE_BASE_EXECUTION_TIME phase + RETRY_DELAYS.sum + 300

end RetryPolicy

namespace RateLimiter

/-!
rate_limiter.py: Redis sorted-set sliding window, modelled as lists.

A TPM entry is the member string "timestamp:tokens" with score timestamp,
modelled as the pair (timestamp, tokens); an RPM entry is the member string
str(timestamp) with score timestamp, modelled as the timestamp. zadd on an
existing member is an update, not a second entry, so insertion is guarded by
membership. Lists are kept in insertion order, which under a monotone clock
is score order (what zrange returns). The key expiry at 61 s only ever drops
entries that are older than 60 s, which the next prune would drop anyway, so
expiry needs no separate model.
-/

/-- zremrangebyscore(key, 0, now - 60): drop entries with score in
[0, now - 60]. -/
def tpmPrune (now : ℚ) (s : List (ℚ × ℕ)) : List (ℚ × ℕ) :=
  s.filter (fun e => !(decide (0 ≤ e.1) && decide (e.1 ≤ now - 60)))

/-- Sum of the token fields of the entries in the window. -/
def tpmSum (s : List (ℚ × ℕ)) : ℕ :=
  (s.map (fun e => e.2)).sum

/-- zadd of member "now:tokens": a no-op when the member already exists. -/
def tpmZadd (now : ℚ) (n : ℕ) (s : List (ℚ × ℕ)) : List (ℚ × ℕ) :=
  if (now, n) ∈ s then s else s ++ [(now, n)]

/-- The wait-time scan of acquire_tokens: walk the window in score order
accumulating freed tokens until the deficit is covered; fall back to 1.0. -/
def tpmWaitGo (now deficit : ℚ) : List (ℚ × ℕ) → ℚ → ℚ
  | [], _ => 1
  | e :: rest, freed =>
    let freed' := freed + (e.2 : ℚ)
    if deficit ≤ freed' then max 0 ((e.1 + 60) - now)
    else tpmWaitGo now deficit rest freed'

/-- acquire_tokens from rate_limiter.py. A falsy (absent or zero) tpm_limit
disables the check entirely; otherwise prune, sum the window, admit when
sum + n fits under the cap, else compute the wait. Returns
(can_proceed, wait, new window state). -/
def acquireTokens (cap : ℕ) (now : ℚ) (n : ℕ) (s : List (ℚ × ℕ)) :
    Bool × ℚ × List (ℚ × ℕ) :=
  if cap = 0 then (true, 0, s)
  else
    let s1 := tpmPrune now s
    let cur := tpmSum s1
    if cur + n ≤ cap then (true, 0, tpmZadd now n s1)
    else (false, tpmWaitGo now (((cur : ℚ) + n) - cap) s1 0, s1)

/-- zremrangebyscore for the RPM window. -/
def rpmPrune (now : ℚ) (s : List ℚ) : List ℚ :=
  s.filter (fun t => !(decide (0 ≤ t) && decide (t ≤ now - 60)))

/-- zadd of member str(now): a no-op when the member already exists. -/
def rpmZadd (now : ℚ) (s : List ℚ) : List ℚ :=
  if now ∈ s then s else s ++ [now]

/-- acquire_request from rate_limiter.py: prune, count, admit under the cap,
else wait until the oldest entry leaves the window (1.0 if none). -/
def acquireRequest (cap : ℕ) (now : ℚ) (s : List ℚ) :
    Bool × ℚ × List ℚ :=
  if cap = 0 then (true, 0, s)
  else
    let s1 := rpmPrune now s
    if s1.length < cap then (true, 0, rpmZadd now s1)
    else
      let wait := match s1.head? with
        | some oldest => max 0 ((oldest + 60) - now)
        | none => 1
      (false, wait, s1)

/-- Run a sequence of acquire_tokens calls (time, token count) sequentially
through the shared window, returning the final window and the granted calls. -/
def runTpm (cap : ℕ) : List (ℚ × ℕ) → List (ℚ × ℕ) → List (ℚ × ℕ) × List (ℚ × ℕ)
  | [], s => (s, [])
  | op :: rest, s =>
    let r := acquireTokens cap op.1 op.2 s
    let out := runTpm cap rest r.2.2
    (out.1, (if r.1 then [op] else []) ++ out.2)

/-- Run a sequence of acquire_request calls sequentially through the shared
window, returning the final window and the times of the granted calls. -/
def runRpm (cap : ℕ) : List ℚ → List ℚ → List ℚ × List ℚ
  | [], s => (s, [])
  | t :: rest, s =>
    let r := acquireRequest cap t s
    let out := runRpm cap rest r.2.2
    (out.1, (if r.1 then [t] else []) ++ out.2)

/-- Tokens granted inside the 60-second window starting at w. -/
def windowTokens (grants : List (ℚ × ℕ)) (w : ℚ) : ℕ :=
  tpmSum (grants.filter (fun e => decide (w ≤ e.1) && decide (e.1 < w + 60)))

/-- Requests granted inside the 60-second window starting at w. -/
def windowCount (grants : List ℚ) (w : ℚ) : ℕ :=
  (grants.filter (fun t => decide (w ≤ t) && decide (t < w + 60))).length

end RateLimiter

namespace Chunking

/-!
chunking_service.py: ContextualChunkingService. The service is created by
get_chunking_service with chunk_size=800 and chunk_overlap=100. LLM calls
are modelled by an oracle giving the context string per chunk; the count of
LLM requests issued is returned alongside the result.
-/

/-- str.strip(): drop leading and trailing whitespace. -/
def pyStrip (s : String) : String :=
  String.mk (((s.toList.dropWhile Char.isWhitespace).reverse.dropWhile
    Char.isWhitespace).reverse)

/-- _estimate_tokens: 4 chars per token, floor division. -/
def estimateTokens (text : String) : ℕ :=
  text.length / 4

/-- Character-level worker for the regex split on (?<=[.!?])\s+ : a maximal
whitespace run whose preceding character is ., ! or ? separates sentences;
other whitespace stays inside the sentence. -/
def splitSentencesAux (prev : Option Char) (acc : List Char) :
    List Char → List (List Char)
  | [] => [acc.reverse]
  | c :: rest =>
    if c.isWhitespace && (prev == some '.' || prev == some '!' || prev == some '?') then
      acc.reverse :: splitSentencesAux (some ' ') [] (rest.dropWhile (fun d => d.isWhitespace))
    else
      splitSentencesAux (some c) (c :: acc) rest
termination_by l => l.length
decreasing_by
  · simp only [List.length_cons]
    exact Nat.lt_succ_of_le (List.dropWhile_sublist _).length_le
  · simp

/-- _split_into_sentences: regex split, then strip each piece and drop the
empty ones. -/
def splitIntoSentences (text : String) : List String :=
  ((splitSentencesAux none [] text.toList).map (fun l => pyStrip (String.mk l))).filter
    (fun s => s ≠ "")

/-- " ".join(...) -/
def joinSpace (l : List String) : String :=
  String.intercalate " " l

/-- A base chunk before context generation: text, char_start, char_end,
token_count. char positions are integers because they are computed by
subtraction in the source. -/
structure BaseChunk where
  text : String
  charStart : ℤ
  charEnd : ℤ
  tokenCount : ℕ
deriving Repr, DecidableEq

/-- The overlap scan: walk the finished chunk from its last sentence
backwards, prepending sentences while the overlap token budget is not
exceeded. Called with the reversed current chunk. -/
def takeOverlapAux (cap : ℕ) : List String → List String → ℕ → List String × ℕ
  | [], acc, toks => (acc, toks)
  | s :: rest, acc, toks =>
    let st := estimateTokens s
    if cap < toks + st then (acc, toks)
    else takeOverlapAux cap rest (s :: acc) (toks + st)

/-- Accumulator state of _create_chunks_with_boundaries. -/
structure CBState where
  chunks : List BaseChunk
  currentChunk : List String
  currentTokens : ℕ
  charPosition : ℕ
deriving Repr

/-- One iteration of the sentence loop in _create_chunks_with_boundaries. -/
def cbStep (chunkSize chunkOverlap : ℕ) (st : CBState) (sentence : String) : CBState :=
  let sTokens := estimateTokens sentence
  let st :=
    if chunkSize < st.currentTokens + sTokens && !st.currentChunk.isEmpty then
      let chunkText := joinSpace st.currentChunk
      let finished : BaseChunk :=
        { text := chunkText,
          charStart := (st.charPosition : ℤ) - chunkText.length,
          charEnd := (st.charPosition : ℤ),
          tokenCount := st.currentTokens }
      let overlap := takeOverlapAux chunkOverlap st.currentChunk.reverse [] 0
      { chunks := st.chunks ++ [finished],
        currentChunk := overlap.1,
        currentTokens := overlap.2,
        charPosition := st.charPosition }
    else st
  { chunks := st.chunks,
    currentChunk := st.currentChunk ++ [sentence],
    currentTokens := st.currentTokens + sTokens,
    charPosition := st.charPosition + sentence.length + 1 }

/-- _create_chunks_with_boundaries: pack sentences into ~chunk_size-token
chunks, carrying an overlap of trailing sentences into each new chunk. -/
def createChunksWithBoundaries (chunkSize chunkOverlap : ℕ) (text : String) :
    List BaseChunk :=
  let sentences := splitIntoSentences text
  let st := sentences.foldl (cbStep chunkSize chunkOverlap)
    { chunks := [], currentChunk := [], currentTokens := 0, charPosition := 0 }
  if st.currentChunk.isEmpty then st.chunks
  else
    let chunkText := joinSpace st.currentChunk
    st.chunks ++
      [{ text := chunkText,
         charStart := (st.charPosition : ℤ) - chunkText.length,
         charEnd := (st.charPosition : ℤ),
         tokenCount := st.currentTokens }]

/-- The pydantic Chunk model of chunking_service.py. -/
structure Chunk where
  text : String
  context : String
  chunkIndex : ℕ
  charStart : ℤ
  charEnd : ℤ
  tokenCount : ℕ
deriving Repr, DecidableEq

/-- Constructing a pydantic Chunk validates the field constraints:
char_start ge=0, char_end gt=0, token_count gt=0 (chunk_index ge=0 holds by
type). A violated constraint raises pydantic.ValidationError. -/
def mkChunk (text context : String) (chunkIndex : ℕ) (charStart charEnd : ℤ)
    (tokenCount : ℕ) : Except PyExn Chunk :=
  if charStart < 0 then
    .error { name := "ValidationError", module := "pydantic",
             msg := "char_start: Input should be greater than or equal to 0" }
  else if charEnd ≤ 0 then
    .error { name := "ValidationError", module := "pydantic",
             msg := "char_end: Input should be greater than 0" }
  else if tokenCount = 0 then
    .error { name := "ValidationError", module := "pydantic",
             msg := "token_count: Input should be greater than 0" }
  else
    .ok { text := text, context := context, chunkIndex := chunkIndex,
          charStart := charStart, charEnd := charEnd, tokenCount := tokenCount }

/-- Build the final Chunk objects from base chunks and their generated
contexts (step 3 of chunk_document). -/
def buildChunks (contexts : ℕ → String) : List BaseChunk → ℕ → Except PyExn (List Chunk)
  | [], _ => .ok []
  | b :: rest, i => do
    let c ← mkChunk b.text (contexts i) i b.charStart b.charEnd b.tokenCount
    let cs ← buildChunks contexts rest (i + 1)
    return c :: cs

/-- The context string of the short-document path:
document_title or "Short document" (Python truthiness: empty string falls
back too). -/
def shortContext (title : Option String) : String :=
  match title with
  | some t => if t = "" then "Short document" else t
  | none => "Short document"

/-- chunk_document from chunking_service.py with the production parameters
chunk_size=800, chunk_overlap=100 supplied by the caller. The LLM is an
oracle mapping the chunk position to its situating context; the second
component is the number of per-chunk LLM context requests issued (the short
path issues none). -/
def chunkDocument (chunkSize chunkOverlap : ℕ) (text : String)
    (documentTitle : Option String) (contexts : ℕ → String) :
    Except PyExn (List Chunk) × ℕ :=
  let text := pyStrip text
  if text = "" then
    (.error { name := "ValueError", msg := "Document text is empty" }, 0)
  else
    let textTokens := estimateTokens text
    if textTokens < chunkSize then
      (mkChunk text (shortContext documentTitle) 0 0 (text.length : ℤ) textTokens
        |>.map (fun c => [c]), 0)
    else
      let base := createChunksWithBoundaries chunkSize chunkOverlap text
      (buildChunks contexts base 0, base.length)

/-- The cacheable system prefix of _generate_chunk_context. -/
def systemContent (fullDocument : String) (documentTitle : Option String) : String :=
  "<document>\n" ++ fullDocument ++ "\n</document>\n\n" ++
  "You will receive chunks from this document. For each chunk, provide a brief (1-2 sentence) description that situates it within the context of the overall document. Focus on what the chunk is about and how it relates to the document's main topics." ++
  (match documentTitle with
   | some t => if t = "" then "" else " The document is titled: " ++ t
   | none => "") ++
  "\n\nProvide only the contextual description, no preamble."

/-- The variable user message of _generate_chunk_context. -/
def userContent (chunkText : String) : String :=
  "<chunk>\n" ++ chunkText ++ "\n</chunk>"

/-- The pre-estimated token total reserved against the rate governor: on the
first chunk the cacheable document prefix is counted too; afterwards only the
chunk and the 100 output tokens. -/
def estimatedTokens (fullDocument chunkText : String) (documentTitle : Option String)
    (isFirstChunk : Bool) : ℕ :=
  let chunkTokens := estimateTokens (userContent chunkText)
  let outputTokens := 100
  if isFirstChunk then
    estimateTokens (systemContent fullDocument documentTitle) + chunkTokens + outputTokens
  else
    chunkTokens + outputTokens

/-- The TPM reservation loop of _generate_chunk_context: up to 20 acquire
attempts against the governor (the window state and clock of each attempt are
supplied by oracles since other workers move them between attempts); returns
whether capacity was acquired and how many acquire calls were made. -/
def tpmWaitLoop (cap est : ℕ) (stateAt : ℕ → List (ℚ × ℕ)) (timeAt : ℕ → ℚ)
    (attempts : ℕ) : Bool × ℕ :=
  if attempts < 20 then
    let r := RateLimiter.acquireTokens cap (timeAt attempts) est (stateAt attempts)
    if r.1 then (true, 1)
    else
      let out := tpmWaitLoop cap est stateAt timeAt (attempts + 1)
      (out.1, out.2 + 1)
  else (false, 0)
termination_by 20 - attempts

/-- The reservation stage of _generate_chunk_context: run the wait loop from
attempt 0 and raise RuntimeError when it never acquired. -/
def reserveTpmCapacity (cap est : ℕ) (stateAt : ℕ → List (ℚ × ℕ)) (timeAt : ℕ → ℚ) :
    Except PyExn ℕ :=
  let r := tpmWaitLoop cap est stateAt timeAt 0
  if r.1 then .ok r.2
  else .error { name := "RuntimeError",
                msg := "Failed to acquire TPM capacity after 20 attempts" }

/-- Outcome of one wave attempt in _generate_contexts_concurrent: either the
whole gather succeeds, or an AnthropicRateLimitError with an optional
retry-after hint escapes. -/
def wavePause (retryAfter : Option ℕ) : ℕ :=
  retryAfter.getD 60

/-- Result of running the wave loop of _generate_contexts_concurrent:
outcome, number of wave attempts executed, total seconds slept on 429 pauses,
and the per-attempt trace of (wave index, oracle outcome). -/
structure WaveRun where
  result : Except (Option ℕ) Unit
  attempts : ℕ
  totalWait : ℕ
  trace : List (ℕ × Option (Option ℕ))
deriving Repr

/-- Adjacency check on a wave-loop trace: after a failed attempt the next
attempt (when there is one) processes the same wave. -/
def traceAdjacencyOk : List (ℕ × Option (Option ℕ)) → Bool
  | [] => true
  | [_] => true
  | a :: b :: rest => (a.2 == none || b.1 == a.1) && traceAdjacencyOk (b :: rest)

/-- The batch loop of _generate_contexts_concurrent: process waves in order;
a successful wave advances and resets the consecutive-retry counter; a 429
pauses for the retry-after hint (60 s default) and retries the same wave;
more than 10 consecutive retries of one wave re-raise the rate-limit error.
The oracle maps the global attempt number to none (success) or
some retryAfter (AnthropicRateLimitError). The trace records, per attempt,
the wave index and the oracle outcome. -/
def runWaves (numWaves : ℕ) (oracle : ℕ → Option (Option ℕ)) (wave retries attempt : ℕ) :
    WaveRun :=
  if h : wave < numWaves then
    match oracle attempt with
    | none =>
      let r := runWaves numWaves oracle (wave + 1) 0 (attempt + 1)
      { r with attempts := r.attempts + 1, trace := (wave, none) :: r.trace }
    | some ra =>
      if 10 < retries + 1 then
        -- the re-raise precedes the sleep, so no pause is taken here
        { result := .error ra, attempts := 1, totalWait := 0,
          trace := [(wave, some ra)] }
      else
        let r := runWaves numWaves oracle wave (retries + 1) (attempt + 1)
        { r with
          attempts := r.attempts + 1
          totalWait := wavePause ra + r.totalWait
          trace := (wave, some ra) :: r.trace }
  else { result := .ok (), attempts := 0, totalWait := 0, trace := [] }
termination_by ((numWaves - wave) * 11 + (10 - retries), 1)
decreasing_by
  · exact Prod.Lex.left _ _ (by omega)
  · exact Prod.Lex.left _ _ (by
      have h1 : retries + 1 ≤ 10 := by omega
      have h2 : wave < numWaves := h
      have h3 : 1 ≤ numWaves - wave := by omega
      omega)

end Chunking

namespace Pipeline

/-!
Relational state shared by the worker handlers, the deletion coordinator and
the pipeline helpers. Tables are lists of records; generated row ids come
from counters threaded through the state; every enqueue and every
remove_episode call is logged so the theorems can speak about side effects.
-/

/-- pipeline_job.status values. -/
inductive JobStatus where
  | pending | processing | completed | failed | cancelled
deriving Repr, DecidableEq

/-- pipeline_phase.status values. -/
inductive PhaseStatus where
  | queued | processing | completed | failed | skipped | cancelled
deriving Repr, DecidableEq

/-- A pipeline_job row. The metadata keys used by the workers (retry_at,
retry_count, last_error) are modelled as fields; update_job_metadata merges
them without touching the others. -/
structure Job where
  id : String
  documentId : String
  orgId : String
  currentPhase : String
  status : JobStatus
  startedAt : Option ℚ := none
  completedAt : Option ℚ := none
  retryAt : Option ℚ := none
  retryCount : Option ℕ := none
  lastError : Option String := none
deriving Repr, DecidableEq

/-- A pipeline_phase row. metadata.empty_extraction is modelled as a field;
the other metadata payloads written by the workers are counts, modelled by
optional fields. -/
structure Phase where
  id : ℕ
  jobId : String
  phase : String
  status : PhaseStatus
  retryCount : ℕ := 0
  parentPhaseId : Option ℕ := none
  inputLocation : Option String := none
  outputLocation : Option String := none
  queuedAt : Option ℚ := none
  startedAt : Option ℚ := none
  expectedCompletionAt : Option ℚ := none
  completedAt : Option ℚ := none
  errorType : Option String := none
  errorMessage : Option String := none
  emptyExtraction : Bool := false
deriving Repr, DecidableEq

/-- A document row (the fields the core touches). -/
structure DocumentRow where
  id : String
  orgId : String
  status : String
  title : Option String := none
deriving Repr, DecidableEq

/-- A document_chunk row. -/
structure ChunkRow where
  id : ℕ
  documentId : String
  chunkIndex : ℕ
  content : String
  context : String
  tokenCount : ℕ
deriving Repr, DecidableEq

/-- A kg_entity_mapping row. -/
structure Mapping where
  organizationId : String
  documentId : String
  entityId : String
  provider : String
  entityType : String
  sourceChunkIds : List ℕ
deriving Repr, DecidableEq

/-- A logged queue.enqueue / queue.enqueue_in call. -/
structure QueueCall where
  queue : String
  delay : ℕ
  pipelineJobId : String
  documentId : String
  retryCount : ℕ
deriving Repr, DecidableEq

/-- A logged pipeline_phase status write: phase id, status written, error_type
written with it (none for a success write). -/
structure PhaseWrite where
  phaseId : ℕ
  status : PhaseStatus
  errorType : Option String
deriving Repr, DecidableEq

/-- The shared relational and side-effect state. -/
structure St where
  jobs : List Job
  phases : List Phase
  documents : List DocumentRow
  chunks : List ChunkRow
  mappings : List Mapping
  queueCalls : List QueueCall
  removals : List String
  phaseWrites : List PhaseWrite
  nextPhaseId : ℕ
  nextJobId : ℕ
deriving Repr, DecidableEq

/-- The empty state. -/
def St.empty : St :=
  { jobs := [], phases := [], documents := [], chunks := [], mappings := [],
    queueCalls := [], removals := [], phaseWrites := [], nextPhaseId := 0, nextJobId := 0 }

/-- update of pipeline_phase rows matched by id. -/
def St.updatePhaseRow (st : St) (pid : ℕ) (f : Phase → Phase) : St :=
  { st with phases := st.phases.map (fun p => if p.id == pid then f p else p) }

/-- Record a phase status write in the log. -/
def St.logPhase (st : St) (pid : ℕ) (status : PhaseStatus) (errorType : Option String) : St :=
  { st with phaseWrites := st.phaseWrites ++ [{ phaseId := pid, status := status, errorType := errorType }] }

/-- update of pipeline_job rows matched by id. -/
def St.updateJobRow (st : St) (jid : String) (f : Job → Job) : St :=
  { st with jobs := st.jobs.map (fun j => if j.id == jid then f j else j) }

/-- insert of a pipeline_phase row: append it, log the status write and bump
the id counter. -/
def St.insertPhase (st : St) (p : Phase) : St :=
  { st with
    phases := st.phases ++ [p]
    nextPhaseId := st.nextPhaseId + 1
    phaseWrites := st.phaseWrites ++
      [{ phaseId := p.id, status := p.status, errorType := p.errorType }] }

/-- Log an enqueue / enqueue_in call. -/
def St.enqueue (st : St) (q : QueueCall) : St :=
  { st with queueCalls := st.queueCalls ++ [q] }

/-- update_job_metadata as used by every worker: merge retry_at, retry_count
and last_error into the job's metadata. -/
def updateJobMetadata (st : St) (jid : String) (retryAt : Option ℚ)
    (retryCount : Option ℕ) (lastError : Option String) : St :=
  st.updateJobRow jid (fun j =>
    { j with retryAt := retryAt, retryCount := retryCount, lastError := lastError })

/-- Python truthiness of an optional string: None and "" are falsy. -/
def strFalsy : Option String → Bool
  | none => true
  | some s => s == ""

end Pipeline

namespace Deletion

open Pipeline

/-- cancel_pipeline_jobs_for_document from utils/deletion.py: select the
document's jobs with status processing or pending, mark them cancelled with
completed_at = now, and mark their queued or processing phases cancelled with
completed_at = now and error message "Document was deleted". Returns the
updated tables and the number of jobs cancelled. -/
def cancelPipelineJobsForDocument (jobs : List Job) (phases : List Phase)
    (documentId orgId : String) (now : ℚ) : List Job × List Phase × ℕ :=
  let active := jobs.filter (fun j =>
    j.documentId == documentId && j.orgId == orgId
      && (j.status == JobStatus.processing || j.status == JobStatus.pending))
  if active.isEmpty then (jobs, phases, 0)
  else
    let ids := active.map (fun j => j.id)
    let jobs' := jobs.map (fun j =>
      if ids.contains j.id then
        { j with status := JobStatus.cancelled, completedAt := some now }
      else j)
    let phases' := phases.map (fun p =>
      if ids.contains p.jobId
          && (p.status == PhaseStatus.queued || p.status == PhaseStatus.processing) then
        { p with status := PhaseStatus.cancelled, completedAt := some now,
                 errorMessage := some "Document was deleted" }
      else p)
    (jobs', phases', ids.length)

end Deletion

namespace Helpers

open Pipeline

/-- create_pipeline_job from core/pipeline_helpers.py: insert a processing
job whose current_phase is ingestion for external sources and extraction for
manual uploads. The generated row id is the stringified job counter. -/
def createPipelineJob (st : St) (documentId sourcePlatform clerkOrgId : String)
    (now : ℚ) : St × String :=
  let jid := toString st.nextJobId
  let job : Job :=
    { id := jid, documentId := documentId, orgId := clerkOrgId,
      currentPhase := if sourcePlatform != "manual_upload" then "ingestion" else "extraction",
      status := JobStatus.processing, startedAt := some now }
  ({ st with jobs := st.jobs ++ [job], nextJobId := st.nextJobId + 1 }, jid)

/-- create_skipped_ingestion_phase from core/pipeline_helpers.py. -/
def createSkippedIngestionPhase (st : St) (pipelineJobId : String) (now : ℚ) : St :=
  let p : Phase :=
    { id := st.nextPhaseId, jobId := pipelineJobId, phase := "ingestion",
      status := PhaseStatus.skipped, queuedAt := some now, completedAt := some now }
  { st with phases := st.phases ++ [p], nextPhaseId := st.nextPhaseId + 1,
            phaseWrites := st.phaseWrites ++
              [{ phaseId := p.id, status := PhaseStatus.skipped, errorType := none }] }

/-- enqueue_pipeline_job from core/pipeline_helpers.py: create the job row,
then branch on the source platform; a manual upload requires raw_location
(ValueError otherwise) and enqueues extraction after inserting the synthetic
skipped ingestion phase; any other platform requires source_location
(ValueError otherwise) and enqueues the combined ingest_extract handler. -/
def enqueuePipelineJob (st : St) (documentId sourcePlatform clerkOrgId
    sourceName fileType : String) (rawLocation sourceLocation : Option String)
    (storeRaw : Bool) (now : ℚ) : St × Except PyExn (String × String) :=
  let created := createPipelineJob st documentId sourcePlatform clerkOrgId now
  let st := created.1
  let pipelineJobId := created.2
  if sourcePlatform == "manual_upload" then
    if strFalsy rawLocation then
      (st, .error { name := "ValueError", msg := "raw_location required for manual uploads" })
    else
      let st := createSkippedIngestionPhase st pipelineJobId now
      let st := { st with queueCalls := st.queueCalls ++
        [{ queue := "extraction", delay := 0, pipelineJobId := pipelineJobId,
           documentId := documentId, retryCount := 0 }] }
      (st, .ok (pipelineJobId, "rq-extraction"))
  else
    if strFalsy sourceLocation then
      (st, .error { name := "ValueError", msg := "source_location required for external sources" })
    else
      let st := { st with queueCalls := st.queueCalls ++
        [{ queue := "ingest_extract", delay := 0, pipelineJobId := pipelineJobId,
           documentId := documentId, retryCount := 0 }] }
      (st, .ok (pipelineJobId, "rq-ingest-extract"))

end Helpers

namespace Workers

open Pipeline RetryPolicy

/-- The dict a handler returns to the broker (handlers never raise out of
their boundary). -/
structure HandlerResult where
  status : String
  reason : Option String := none
deriving Repr, DecidableEq

/-- Worker for str.split(): group the non-whitespace runs. -/
def splitWhitespaceAux : List Char → List Char → List (List Char)
  | [], acc => if acc.isEmpty then [] else [acc.reverse]
  | c :: rest, acc =>
    if c.isWhitespace then
      if acc.isEmpty then splitWhitespaceAux rest []
      else acc.reverse :: splitWhitespaceAux rest []
    else splitWhitespaceAux rest (c :: acc)

/-- len(text.split()): whitespace-split word count, empty pieces dropped. -/
def wordCount (s : String) : ℕ :=
  (splitWhitespaceAux s.toList []).length

/-!
kg_worker.py: ingest_kg_task. The graph engine's add_episode is an oracle
from the chunk's position in the gather to the returned episode uuid
(none models both a raised exception and a result without an episode id,
which the handler treats identically). remove_episode calls are logged in
St.removals; their own failures are swallowed by the handler, so the removal
oracle needs no failure branch. Document-title lookup, Graphiti client
initialization and the KG_MAX_CONCURRENT read are assumed healthy; the
semaphore only bounds concurrency and the gather preserves order, so the
per-chunk loop is sequential here. -/

/-- The add-chunk loop of ingest_kg_task: per chunk call add_episode and, on
an episode id, insert a kg_entity_mapping row. Returns the state and the
collected episode ids in order. -/
def kgAddChunks (addEpisode : ℕ → Option String) (clerkOrgId documentId : String) :
    List ChunkRow → ℕ → St → St × List String
  | [], _, st => (st, [])
  | c :: rest, i, st =>
    match addEpisode i with
    | some eid =>
      let st := { st with mappings := st.mappings ++
        [{ organizationId := clerkOrgId, documentId := documentId, entityId := eid,
           provider := "graphiti", entityType := "episode", sourceChunkIds := [c.id] }] }
      let out := kgAddChunks addEpisode clerkOrgId documentId rest (i + 1) st
      (out.1, eid :: out.2)
    | none =>
      kgAddChunks addEpisode clerkOrgId documentId rest (i + 1) st

/-- The try-block of ingest_kg_task: clear retry metadata, insert the
processing kg_ingest phase, load the chunks (no chunks is a ValueError),
add the chunks, then either compensate and raise PartialIngestError on any
failure, or complete the phase and the job. Returns the state at the point
of return or raise, the inserted phase id, and the outcome. -/
def kgInner (addEpisode : ℕ → Option String) (st : St)
    (pipelineJobId documentId : String) (retryCount : ℕ) (parentPhaseId : Option ℕ)
    (clerkOrgId : String) (now : ℚ) : St × Option ℕ × Except PyExn HandlerResult :=
  let st := if 0 < retryCount then
      updateJobMetadata st pipelineJobId none (some retryCount) none
    else st
  let pid := st.nextPhaseId
  let phase : Phase :=
    { id := pid, jobId := pipelineJobId, phase := "kg_ingest",
      status := PhaseStatus.processing, retryCount := retryCount,
      parentPhaseId := parentPhaseId, startedAt := some now,
      expectedCompletionAt := some (now + (getPhaseTimeout "kg_ingest" : ℚ)) }
  let st := st.insertPhase phase
  let chunks := st.chunks.filter (fun c => c.documentId == documentId)
  if chunks.isEmpty then
    (st, some pid,
     .error { name := "ValueError", msg := "No chunks found for document " ++ documentId })
  else
    let run := kgAddChunks addEpisode clerkOrgId documentId chunks 0 st
    let st := run.1
    let episodeIds := run.2
    let chunkCount := chunks.length
    let episodeCount := episodeIds.length
    let failedCount := chunkCount - episodeCount
    if 0 < failedCount then
      let st := { st with
        mappings := st.mappings.filter (fun m => m.documentId != documentId) }
      let st := { st with removals := st.removals ++ episodeIds }
      let st := ((st.updatePhaseRow pid (fun p =>
        { p with status := PhaseStatus.failed, completedAt := some now,
                 errorMessage := some "Partial failure: some chunks failed to ingest",
                 errorType := some "PartialIngestFailure" })).logPhase
          pid PhaseStatus.failed (some "PartialIngestFailure"))
      (st, some pid, .error (partialIngestError "Partial KG ingest failure"))
    else
      let st := ((st.updatePhaseRow pid (fun p =>
        { p with status := PhaseStatus.completed, completedAt := some now })).logPhase
          pid PhaseStatus.completed none)
      let st := st.updateJobRow pipelineJobId (fun j =>
        { j with currentPhase := "completed", status := JobStatus.completed,
                 completedAt := some now })
      (st, some pid, .ok { status := "success" })

/-- The shared exception handler of the workers, instantiated for
ingest_kg_task: mark the phase failed with the exception's class name and
message, then either schedule a retry (new queued phase, job retry metadata,
delayed re-enqueue) or mark the job failed. -/
def ingestKgTask (addEpisode : ℕ → Option String) (st : St)
    (pipelineJobId documentId : String) (retryCount : ℕ) (parentPhaseId : Option ℕ)
    (clerkOrgId : String) (now : ℚ) : St × HandlerResult :=
  let r := kgInner addEpisode st pipelineJobId documentId retryCount parentPhaseId
    clerkOrgId now
  match r.2.2 with
  | .ok res => (r.1, res)
  | .error e =>
    let st := r.1
    let st := match r.2.1 with
      | some pid =>
        ((st.updatePhaseRow pid (fun p =>
          { p with status := PhaseStatus.failed, errorMessage := some e.msg,
                   errorType := some e.name, completedAt := some now })).logPhase
            pid PhaseStatus.failed (some e.name))
      | none => st
    if retryCount < MAX_RETRIES && isRetryableError e then
      let delay := getRetryDelay retryCount (some e)
      let pid2 := st.nextPhaseId
      let retryPhase : Phase :=
        { id := pid2, jobId := pipelineJobId, phase := "kg_ingest",
          status := PhaseStatus.queued, parentPhaseId := r.2.1,
          retryCount := retryCount + 1, queuedAt := some (now + (delay : ℚ)) }
      let st := st.insertPhase retryPhase
      let st := updateJobMetadata st pipelineJobId (some (now + (delay : ℚ)))
        (some (retryCount + 1)) (some e.msg)
      let st := st.enqueue
        { queue := "kg_ingest", delay := delay, pipelineJobId := pipelineJobId,
          documentId := documentId, retryCount := retryCount + 1 }
      (st, { status := "retrying", reason := some e.msg })
    else
      let st := st.updateJobRow pipelineJobId (fun j =>
        { j with status := JobStatus.failed, completedAt := some now })
      (st, { status := "failed", reason := some e.msg })

/-!
ingest_extract_worker.py: ingest_extract_task. The Google Drive download and
the text extraction are oracles returning either an exception or their
result (the mime type resp. the extracted text); the file bytes stay
abstract because only the extraction consumes them. -/

/-- The try-block of ingest_extract_task, beginning with the defensive
pipeline_job check: a missing or cancelled job short-circuits to a skipped
result before any phase row is inserted. Then: ingestion phase (download in
memory), extraction phase, and either the empty-extraction completion path
or the normal store-and-enqueue path. Returns the state, the two phase ids,
and the outcome. -/
def ingestExtractInner (download : Except PyExn String) (extract : Except PyExn String)
    (st : St) (pipelineJobId documentId sourceLocation : String) (retryCount : ℕ)
    (parentIngestPhaseId parentExtractPhaseId : Option ℕ) (storeRaw : Bool) (now : ℚ) :
    St × Option ℕ × Option ℕ × Except PyExn HandlerResult :=
  match st.jobs.find? (fun j => j.id == pipelineJobId) with
  | none =>
    (st, none, none, .ok { status := "skipped", reason := some "pipeline_job_not_found" })
  | some j =>
    if j.status == JobStatus.cancelled then
      (st, none, none, .ok { status := "skipped", reason := some "pipeline_job_cancelled" })
    else
      let st := if 0 < retryCount then
          updateJobMetadata st pipelineJobId none (some retryCount) none
        else st
      let ipid := st.nextPhaseId
      let ingestPhase : Phase :=
        { id := ipid, jobId := pipelineJobId, phase := "ingestion",
          status := PhaseStatus.processing, retryCount := retryCount,
          parentPhaseId := parentIngestPhaseId, inputLocation := some sourceLocation,
          startedAt := some now,
          expectedCompletionAt := some (now + (getPhaseTimeout "extraction" : ℚ)) }
      let st := st.insertPhase ingestPhase
      match download with
      | .error e => (st, some ipid, none, .error e)
      | .ok _ =>
        let st := ((st.updatePhaseRow ipid (fun p =>
          { p with status := PhaseStatus.completed, completedAt := some now })).logPhase
            ipid PhaseStatus.completed none)
        let st := st.updateJobRow pipelineJobId (fun jb =>
          { jb with currentPhase := "extraction" })
        let epid := st.nextPhaseId
        let extractPhase : Phase :=
          { id := epid, jobId := pipelineJobId, phase := "extraction",
            status := PhaseStatus.processing, retryCount := retryCount,
            parentPhaseId := parentExtractPhaseId, inputLocation := some sourceLocation,
            startedAt := some now,
            expectedCompletionAt := some (now + (getPhaseTimeout "extraction" : ℚ)) }
        let st := st.insertPhase extractPhase
        match extract with
        | .error e => (st, some ipid, some epid, .error e)
        | .ok text =>
          if text.length == 0 || wordCount text == 0 then
            let st := ((st.updatePhaseRow epid (fun p =>
              { p with status := PhaseStatus.completed, completedAt := some now,
                       emptyExtraction := true })).logPhase epid PhaseStatus.completed none)
            let st := st.updateJobRow pipelineJobId (fun jb =>
              { jb with currentPhase := "completed", status := JobStatus.completed,
                        completedAt := some now })
            let st := { st with documents := st.documents.map (fun d =>
              if d.id == documentId then { d with status := "available_to_ai" } else d) }
            (st, some ipid, some epid, .ok { status := "success", reason := some "empty_extraction" })
          else
            let textLocation := "extracted_text/" ++ documentId ++ ".txt"
            let st := ((st.updatePhaseRow epid (fun p =>
              { p with status := PhaseStatus.completed, completedAt := some now,
                       outputLocation := some textLocation })).logPhase
                epid PhaseStatus.completed none)
            let st := st.updateJobRow pipelineJobId (fun jb =>
              { jb with currentPhase := "chunking" })
            let st := st.enqueue
              { queue := "chunking", delay := 0, pipelineJobId := pipelineJobId,
                documentId := documentId, retryCount := 0 }
            (st, some ipid, some epid, .ok { status := "success" })

/-- ingest_extract_task with its exception handler: on failure both phase
rows (when created) are marked failed, and retry phases of both labels are
created as siblings before the delayed re-enqueue; giving up marks the job
failed. -/
def ingestExtractTask (download : Except PyExn String) (extract : Except PyExn String)
    (st : St) (pipelineJobId documentId sourceLocation : String) (retryCount : ℕ)
    (parentIngestPhaseId parentExtractPhaseId : Option ℕ) (storeRaw : Bool) (now : ℚ) :
    St × HandlerResult :=
  let r := ingestExtractInner download extract st pipelineJobId documentId sourceLocation
    retryCount parentIngestPhaseId parentExtractPhaseId storeRaw now
  match r.2.2.2 with
  | .ok res => (r.1, res)
  | .error e =>
    let st := r.1
    let ingestPhaseId := r.2.1
    let extractPhaseId := r.2.2.1
    let st := match ingestPhaseId with
      | some pid =>
        ((st.updatePhaseRow pid (fun p =>
          { p with status := PhaseStatus.failed, errorMessage := some e.msg,
                   errorType := some e.name, completedAt := some now })).logPhase
            pid PhaseStatus.failed (some e.name))
      | none => st
    let st := match extractPhaseId with
      | some pid =>
        ((st.updatePhaseRow pid (fun p =>
          { p with status := PhaseStatus.failed, errorMessage := some e.msg,
                   errorType := some e.name, completedAt := some now })).logPhase
            pid PhaseStatus.failed (some e.name))
      | none => st
    if retryCount < MAX_RETRIES && isRetryableError e then
      let delay := getRetryDelay retryCount (some e)
      let ipid2 := st.nextPhaseId
      let st := st.insertPhase
        { id := ipid2, jobId := pipelineJobId, phase := "ingestion",
          status := PhaseStatus.queued, parentPhaseId := ingestPhaseId,
          retryCount := retryCount + 1, inputLocation := some sourceLocation,
          queuedAt := some (now + (delay : ℚ)) }
      let epid2 := st.nextPhaseId
      let st := st.insertPhase
        { id := epid2, jobId := pipelineJobId, phase := "extraction",
          status := PhaseStatus.queued, parentPhaseId := extractPhaseId,
          retryCount := retryCount + 1, inputLocation := some sourceLocation,
          queuedAt := some (now + (delay : ℚ)) }
      let st := updateJobMetadata st pipelineJobId (some (now + (delay : ℚ)))
        (some (retryCount + 1)) (some e.msg)
      let st := st.enqueue
        { queue := "ingest_extract", delay := delay, pipelineJobId := pipelineJobId,
          documentId := documentId, retryCount := retryCount + 1 }
      (st, { status := "retrying", reason := some e.msg })
    else
      let st := st.updateJobRow pipelineJobId (fun jb =>
        { jb with status := JobStatus.failed, completedAt := some now })
      (st, { status := "failed", reason := some e.msg })

/-!
extraction_worker.py: extract_task (local-upload path). The storage download
and the extraction are oracles; empty extracted text raises a ValueError
inside the try block. -/

/-- The try-block of extract_task: clear retry metadata, insert the
processing extraction phase, download from storage, extract, raise
ValueError on empty text, otherwise store the text, complete the phase,
advance the job and enqueue chunking. -/
def extractInner (load : Except PyExn Unit) (extract : Except PyExn String)
    (st : St) (pipelineJobId documentId rawLocation : String) (retryCount : ℕ)
    (parentPhaseId : Option ℕ) (now : ℚ) : St × Option ℕ × Except PyExn HandlerResult :=
  let st := if 0 < retryCount then
      updateJobMetadata st pipelineJobId none (some retryCount) none
    else st
  let pid := st.nextPhaseId
  let phase : Phase :=
    { id := pid, jobId := pipelineJobId, phase := "extraction",
      status := PhaseStatus.processing, retryCount := retryCount,
      parentPhaseId := parentPhaseId, inputLocation := some rawLocation,
      startedAt := some now,
      expectedCompletionAt := some (now + (getPhaseTimeout "extraction" : ℚ)) }
  let st := st.insertPhase phase
  match load with
  | .error e => (st, some pid, .error e)
  | .ok _ =>
    match extract with
    | .error e => (st, some pid, .error e)
    | .ok text =>
      if text.length == 0 then
        (st, some pid,
         .error { name := "ValueError",
                  msg := "No text extracted from file. Source: " ++ rawLocation })
      else
        let textLocation := "extracted_text/" ++ documentId ++ ".txt"
        let st := ((st.updatePhaseRow pid (fun p =>
          { p with status := PhaseStatus.completed, completedAt := some now,
                   outputLocation := some textLocation })).logPhase
            pid PhaseStatus.completed none)
        let st := st.updateJobRow pipelineJobId (fun jb =>
          { jb with currentPhase := "chunking" })
        let st := st.enqueue
          { queue := "chunking", delay := 0, pipelineJobId := pipelineJobId,
            documentId := documentId, retryCount := 0 }
        (st, some pid, .ok { status := "success" })

/-- extract_task with its exception handler (same shape as the kg handler
but on the extraction queue). -/
def extractTask (load : Except PyExn Unit) (extract : Except PyExn String)
    (st : St) (pipelineJobId documentId rawLocation : String) (retryCount : ℕ)
    (parentPhaseId : Option ℕ) (now : ℚ) : St × HandlerResult :=
  let r := extractInner load extract st pipelineJobId documentId rawLocation retryCount
    parentPhaseId now
  match r.2.2 with
  | .ok res => (r.1, res)
  | .error e =>
    let st := r.1
    let st := match r.2.1 with
      | some pid =>
        ((st.updatePhaseRow pid (fun p =>
          { p with status := PhaseStatus.failed, errorMessage := some e.msg,
                   errorType := some e.name, completedAt := some now })).logPhase
            pid PhaseStatus.failed (some e.name))
      | none => st
    if retryCount < MAX_RETRIES && isRetryableError e then
      let delay := getRetryDelay retryCount (some e)
      let pid2 := st.nextPhaseId
      let st := st.insertPhase
        { id := pid2, jobId := pipelineJobId, phase := "extraction",
          status := PhaseStatus.queued, parentPhaseId := r.2.1,
          retryCount := retryCount + 1, inputLocation := some rawLocation,
          queuedAt := some (now + (delay : ℚ)) }
      let st := updateJobMetadata st pipelineJobId (some (now + (delay : ℚ)))
        (some (retryCount + 1)) (some e.msg)
      let st := st.enqueue
        { queue := "extraction", delay := delay, pipelineJobId := pipelineJobId,
          documentId := documentId, retryCount := retryCount + 1 }
      (st, { status := "retrying", reason := some e.msg })
    else
      let st := st.updateJobRow pipelineJobId (fun jb =>
        { jb with status := JobStatus.failed, completedAt := some now })
      (st, { status := "failed", reason := some e.msg })

/-!
chunking_worker.py: chunk_task. Loading the extracted text is an oracle; the
chunking itself is the embedded chunking service (chunk_document with the
production parameters 800/100 from get_chunking_service), whose LLM calls
are the contexts oracle. The ANTHROPIC_API_KEY read is assumed healthy.
Chunk row ids are assigned by the database; they are modelled as offsets
from the current table size. The chunks_data metadata (char_start/char_end)
is not carried by the ChunkRow model. -/

/-- The chunks_data rows built from the service's chunks: content, context,
dense chunk_index from 0, token_count. -/
def chunkRowsFrom (documentId : String) (base : ℕ) :
    List Chunking.Chunk → ℕ → List ChunkRow
  | [], _ => []
  | c :: rest, i =>
    { id := base + i, documentId := documentId, chunkIndex := i, content := c.text,
      context := c.context, tokenCount := c.tokenCount }
      :: chunkRowsFrom documentId base rest (i + 1)

/-- The try-block of chunk_task: clear retry metadata, insert the processing
chunking phase, load the text, chunk it with the contextual service, insert
all document_chunk rows in one batch, complete the phase, advance the job
and enqueue kg_ingest. There is no pipeline_job check at the start. -/
def chunkInner (loadText : Except PyExn String) (contexts : ℕ → String)
    (st : St) (pipelineJobId documentId textLocation : String) (retryCount : ℕ)
    (parentPhaseId : Option ℕ) (sourceName : String) (now : ℚ) :
    St × Option ℕ × Except PyExn HandlerResult :=
  let st := if 0 < retryCount then
      updateJobMetadata st pipelineJobId none (some retryCount) none
    else st
  let pid := st.nextPhaseId
  let phase : Phase :=
    { id := pid, jobId := pipelineJobId, phase := "chunking",
      status := PhaseStatus.processing, retryCount := retryCount,
      parentPhaseId := parentPhaseId, inputLocation := some textLocation,
      startedAt := some now,
      expectedCompletionAt := some (now + (getPhaseTimeout "chunking" : ℚ)) }
  let st := st.insertPhase phase
  match loadText with
  | .error e => (st, some pid, .error e)
  | .ok text =>
    match (Chunking.chunkDocument 800 100 text (some sourceName) contexts).1 with
    | .error e => (st, some pid, .error e)
    | .ok chunks =>
      let rows := chunkRowsFrom documentId st.chunks.length chunks 0
      let st := { st with chunks := st.chunks ++ rows }
      let st := ((st.updatePhaseRow pid (fun p =>
        { p with status := PhaseStatus.completed, completedAt := some now })).logPhase
          pid PhaseStatus.completed none)
      let st := st.updateJobRow pipelineJobId (fun jb =>
        { jb with currentPhase := "kg_ingest" })
      let st := st.enqueue
        { queue := "kg_ingest", delay := 0, pipelineJobId := pipelineJobId,
          documentId := documentId, retryCount := 0 }
      (st, some pid, .ok { status := "success" })

/-- chunk_task with its exception handler (same shape as the other workers,
on the chunking queue; the post-retry rate-limit cooldown sleep has no
state effect and is not modelled). -/
def chunkTask (loadText : Except PyExn String) (contexts : ℕ → String)
    (st : St) (pipelineJobId documentId textLocation : String) (retryCount : ℕ)
    (parentPhaseId : Option ℕ) (sourceName : String) (now : ℚ) :
    St × HandlerResult :=
  let r := chunkInner loadText contexts st pipelineJobId documentId textLocation
    retryCount parentPhaseId sourceName now
  match r.2.2 with
  | .ok res => (r.1, res)
  | .error e =>
    let st := r.1
    let st := match r.2.1 with
      | some pid =>
        ((st.updatePhaseRow pid (fun p =>
          { p with status := PhaseStatus.failed, errorMessage := some e.msg,
                   errorType := some e.name, completedAt := some now })).logPhase
            pid PhaseStatus.failed (some e.name))
      | none => st
    if retryCount < MAX_RETRIES && isRetryableError e then
      let delay := getRetryDelay retryCount (some e)
      let pid2 := st.nextPhaseId
      let retryPhase : Phase :=
        { id := pid2, jobId := pipelineJobId, phase := "chunking",
          status := PhaseStatus.queued, parentPhaseId := r.2.1,
          retryCount := retryCount + 1, inputLocation := some textLocation,
          queuedAt := some (now + (delay : ℚ)) }
      let st := st.insertPhase retryPhase
      let st := updateJobMetadata st pipelineJobId (some (now + (delay : ℚ)))
        (some (retryCount + 1)) (some e.msg)
      let st := st.enqueue
        { queue := "chunking", delay := delay, pipelineJobId := pipelineJobId,
          documentId := documentId, retryCount := retryCount + 1 }
      (st, { status := "retrying", reason := some e.msg })
    else
      let st := st.updateJobRow pipelineJobId (fun jb =>
        { jb with status := JobStatus.failed, completedAt := some now })
      (st, { status := "failed", reason := some e.msg })

/-- Specification view of the mapping rows the add-chunk loop inserts:
one row per successful add_episode, in chunk order. -/
def kgNewMappings (addEpisode : ℕ → Option String) (clerkOrgId documentId : String) :
    List ChunkRow → ℕ → List Mapping
  | [], _ => []
  | c :: rest, i =>
    match addEpisode i with
    | some eid =>
      { organizationId := clerkOrgId, documentId := documentId, entityId := eid,
        provider := "graphiti", entityType := "episode", sourceChunkIds := [c.id] }
        :: kgNewMappings addEpisode clerkOrgId documentId rest (i + 1)
    | none => kgNewMappings addEpisode clerkOrgId documentId rest (i + 1)

/-- Specification view of the episode ids collected by the add-chunk loop:
the successful add_episode results in chunk order. -/
def kgEpisodeIds (addEpisode : ℕ → Option String) : List ChunkRow → ℕ → List String
  | [], _ => []
  | _ :: rest, i =>
    match addEpisode i with
    | some eid => eid :: kgEpisodeIds addEpisode rest (i + 1)
    | none => kgEpisodeIds addEpisode rest (i + 1)

end Workers

namespace RateLimiter

lemma tpmSum_append (a b : List (ℚ × ℕ)) :
    tpmSum (a ++ b) = tpmSum a + tpmSum b := by
  simp [tpmSum]

lemma windowTokens_append (a b : List (ℚ × ℕ)) (w : ℚ) :
    windowTokens (a ++ b) w = windowTokens a w + windowTokens b w := by
  simp [windowTokens, List.filter_append, tpmSum]

lemma windowCount_append (a b : List ℚ) (w : ℚ) :
    windowCount (a ++ b) w = windowCount a w + windowCount b w := by
  simp [windowCount, List.filter_append]

lemma tpmSum_filter_cons_le (q : (ℚ × ℕ) → Bool) (a : ℚ × ℕ) (l : List (ℚ × ℕ)) :
    tpmSum (l.filter q) ≤ tpmSum ((a :: l).filter q) := by
  by_cases hq : q a <;> simp [List.filter_cons, hq, tpmSum]

lemma tpmSum_filter_mono {p q : (ℚ × ℕ) → Bool} (h : ∀ a, p a = true → q a = true) :
    ∀ l : List (ℚ × ℕ), tpmSum (l.filter p) ≤ tpmSum (l.filter q) := by
  intro l
  induction l with
  | nil => simp
  | cons a l ih =>
    by_cases hp : p a = true
    · have hq := h a hp
      simp only [List.filter_cons, hp, hq, if_true]
      simp only [tpmSum, List.map_cons, List.sum_cons] at *
      omega
    · have heq : tpmSum ((a :: l).filter p) = tpmSum (l.filter p) := by
        simp [List.filter_cons, hp]
      calc tpmSum ((a :: l).filter p) = tpmSum (l.filter p) := heq
        _ ≤ tpmSum (l.filter q) := ih
        _ ≤ tpmSum ((a :: l).filter q) := tpmSum_filter_cons_le q a l

lemma length_filter_cons_le (q : ℚ → Bool) (a : ℚ) (l : List ℚ) :
    (l.filter q).length ≤ ((a :: l).filter q).length := by
  by_cases hq : q a <;> simp [List.filter_cons, hq]

lemma length_filter_mono {p q : ℚ → Bool} (h : ∀ a, p a = true → q a = true) :
    ∀ l : List ℚ, (l.filter p).length ≤ (l.filter q).length := by
  intro l
  induction l with
  | nil => simp
  | cons a l ih =>
    by_cases hp : p a = true
    · have hq := h a hp
      simp only [List.filter_cons, hp, hq, if_true, List.length_cons]
      omega
    · have heq : ((a :: l).filter p).length = (l.filter p).length := by
        simp [List.filter_cons, hp]
      calc ((a :: l).filter p).length = (l.filter p).length := heq
        _ ≤ (l.filter q).length := ih
        _ ≤ ((a :: l).filter q).length := length_filter_cons_le q a l

/-- Pruning at a later instant a window that records exactly the entries
younger than 60 s before an earlier instant yields the entries younger than
60 s before the later instant. -/
lemma tpmPrune_filter (past : List (ℚ × ℕ)) (t0 t : ℚ)
    (h0 : ∀ e ∈ past, 0 ≤ e.1) (ht : t0 ≤ t) :
    tpmPrune t (past.filter (fun e => decide (t0 - 60 < e.1)))
      = past.filter (fun e => decide (t - 60 < e.1)) := by
  unfold tpmPrune
  rw [List.filter_filter]
  refine List.filter_congr ?_
  intro e he
  have h0e := h0 e he
  by_cases h1 : t - 60 < e.1
  · have h2 : ¬ (e.1 ≤ t - 60) := not_le.mpr h1
    have h3 : t0 - 60 < e.1 := by linarith
    simp [h1, h2, h3]
  · have h2 : e.1 ≤ t - 60 := not_lt.mp h1
    simp [h1, h0e, h2]

lemma rpmPrune_filter (past : List ℚ) (t0 t : ℚ)
    (h0 : ∀ e ∈ past, 0 ≤ e) (ht : t0 ≤ t) :
    rpmPrune t (past.filter (fun e => decide (t0 - 60 < e)))
      = past.filter (fun e => decide (t - 60 < e)) := by
  unfold rpmPrune
  rw [List.filter_filter]
  refine List.filter_congr ?_
  intro e he
  have h0e := h0 e he
  by_cases h1 : t - 60 < e
  · have h2 : ¬ (e ≤ t - 60) := not_le.mpr h1
    have h3 : t0 - 60 < e := by linarith
    simp [h1, h2, h3]
  · have h2 : e ≤ t - 60 := not_lt.mp h1
    simp [h1, h0e, h2]

lemma runTpm_cons (cap : ℕ) (op : ℚ × ℕ) (rest : List (ℚ × ℕ)) (s : List (ℚ × ℕ)) :
    runTpm cap (op :: rest) s =
      ((runTpm cap rest (acquireTokens cap op.1 op.2 s).2.2).1,
       (if (acquireTokens cap op.1 op.2 s).1 then [op] else [])
         ++ (runTpm cap rest (acquireTokens cap op.1 op.2 s).2.2).2) := rfl

lemma runRpm_cons (cap : ℕ) (t : ℚ) (rest : List ℚ) (s : List ℚ) :
    runRpm cap (t :: rest) s =
      ((runRpm cap rest (acquireRequest cap t s).2.2).1,
       (if (acquireRequest cap t s).1 then [t] else [])
         ++ (runRpm cap rest (acquireRequest cap t s).2.2).2) := rfl

lemma acquireTokens_eq (cap : ℕ) (hcap : cap ≠ 0) (now : ℚ) (n : ℕ) (s : List (ℚ × ℕ)) :
    acquireTokens cap now n s =
      if tpmSum (tpmPrune now s) + n ≤ cap
      then (true, 0, tpmZadd now n (tpmPrune now s))
      else (false, tpmWaitGo now (((tpmSum (tpmPrune now s) : ℚ) + n) - cap) (tpmPrune now s) 0,
            tpmPrune now s) := by
  unfold acquireTokens
  rw [if_neg hcap]

lemma acquireRequest_eq (cap : ℕ) (hcap : cap ≠ 0) (now : ℚ) (s : List ℚ) :
    acquireRequest cap now s =
      if (rpmPrune now s).length < cap
      then (true, 0, rpmZadd now (rpmPrune now s))
      else (false,
            match (rpmPrune now s).head? with
            | some oldest => max 0 ((oldest + 60) - now)
            | none => 1,
            rpmPrune now s) := by
  unfold acquireRequest
  rw [if_neg hcap]

/-- Main sliding-window invariant for acquire_tokens: under a strictly
increasing clock, every grant was admitted against a window that contained
all grants of the previous 60 seconds, so no 60-second window ever carries
more granted tokens than the cap. -/
lemma runTpm_window_bound (cap : ℕ) (hcap : cap ≠ 0) :
    ∀ (ops past : List (ℚ × ℕ)) (t0 : ℚ),
      List.Pairwise (fun a b : ℚ × ℕ => a.1 < b.1) ops →
      (∀ e ∈ ops, t0 < e.1 ∧ 0 ≤ e.1) →
      (∀ e ∈ past, 0 ≤ e.1 ∧ e.1 ≤ t0) →
      (∀ w, windowTokens past w ≤ cap) →
      ∀ w, windowTokens
        (past ++ (runTpm cap ops (past.filter (fun e => decide (t0 - 60 < e.1)))).2) w ≤ cap := by
  intro ops
  induction ops with
  | nil =>
    intro past t0 _ _ _ hbound w
    simpa [runTpm] using hbound w
  | cons op rest ih =>
    intro past t0 hpw hops hpast hbound w
    obtain ⟨hop_t0, hop_0⟩ := hops op (List.mem_cons_self _ _)
    have hprune : tpmPrune op.1 (past.filter (fun e => decide (t0 - 60 < e.1)))
        = past.filter (fun e => decide (op.1 - 60 < e.1)) :=
      tpmPrune_filter past t0 op.1 (fun e he => (hpast e he).1) (le_of_lt hop_t0)
    have hrest : ∀ e ∈ rest, op.1 < e.1 ∧ 0 ≤ e.1 := by
      intro e he
      exact ⟨(List.pairwise_cons.mp hpw).1 e he, (hops e (List.mem_cons_of_mem _ he)).2⟩
    by_cases hgr : tpmSum (past.filter (fun e => decide (op.1 - 60 < e.1))) + op.2 ≤ cap
    · -- the call is granted
      have hnotmem : (op.1, op.2) ∉ past.filter (fun e => decide (op.1 - 60 < e.1)) := by
        intro hmem
        have h1 := (hpast _ (List.mem_of_mem_filter hmem)).2
        simp only at h1
        linarith
      have hzadd : tpmZadd op.1 op.2 (past.filter (fun e => decide (op.1 - 60 < e.1)))
          = past.filter (fun e => decide (op.1 - 60 < e.1)) ++ [op] := by
        unfold tpmZadd
        rw [if_neg hnotmem]
      have hfilter' : (past ++ [op]).filter (fun e => decide (op.1 - 60 < e.1))
          = past.filter (fun e => decide (op.1 - 60 < e.1)) ++ [op] := by
        rw [List.filter_append]
        congr 1
        simp [show op.1 - 60 < op.1 by linarith]
      have hpast' : ∀ e ∈ past ++ [op], 0 ≤ e.1 ∧ e.1 ≤ op.1 := by
        intro e he
        rcases List.mem_append.mp he with h | h
        · exact ⟨(hpast e h).1, le_trans (hpast e h).2 (le_of_lt hop_t0)⟩
        · simp only [List.mem_singleton] at h
          subst h
          exact ⟨hop_0, le_refl _⟩
      have hbound' : ∀ w', windowTokens (past ++ [op]) w' ≤ cap := by
        intro w'
        rw [windowTokens_append]
        by_cases hw : w' ≤ op.1 ∧ op.1 < w' + 60
        · have hwin : windowTokens [op] w' = op.2 := by
            simp [windowTokens, tpmSum, hw.1, hw.2]
          have hmono : windowTokens past w'
              ≤ tpmSum (past.filter (fun e => decide (op.1 - 60 < e.1))) := by
            unfold windowTokens
            apply tpmSum_filter_mono
            intro a ha
            simp only [Bool.and_eq_true, decide_eq_true_eq] at ha ⊢
            have := hw.2
            linarith [ha.1]
          omega
        · have hwin : windowTokens [op] w' = 0 := by
            rcases not_and_or.mp hw with h | h
            · simp [windowTokens, tpmSum, not_le.mp h |>.not_le]
            · simp [windowTokens, tpmSum, not_lt.mp h |>.not_lt]
          rw [hwin]
          simpa using hbound w'
      have hstep := ih (past ++ [op]) op.1 (List.pairwise_cons.mp hpw).2 hrest hpast' hbound'
      rw [hfilter'] at hstep
      rw [runTpm_cons, acquireTokens_eq cap hcap, hprune, if_pos hgr, hzadd]
      simpa [List.append_assoc] using hstep w
    · -- the call is denied: state is only pruned, no grant is recorded
      have hpast' : ∀ e ∈ past, 0 ≤ e.1 ∧ e.1 ≤ op.1 := by
        intro e he
        exact ⟨(hpast e he).1, le_trans (hpast e he).2 (le_of_lt hop_t0)⟩
      have hstep := ih past op.1 (List.pairwise_cons.mp hpw).2 hrest hpast' hbound
      rw [runTpm_cons, acquireTokens_eq cap hcap, hprune, if_neg hgr]
      simpa using hstep w

/-- Main sliding-window invariant for acquire_request: under a strictly
increasing clock no 60-second window ever carries more grants than the cap. -/
lemma runRpm_window_bound (cap : ℕ) (hcap : cap ≠ 0) :
    ∀ (ops past : List ℚ) (t0 : ℚ),
      List.Pairwise (fun a b : ℚ => a < b) ops →
      (∀ e ∈ ops, t0 < e ∧ 0 ≤ e) →
      (∀ e ∈ past, 0 ≤ e ∧ e ≤ t0) →
      (∀ w, windowCount past w ≤ cap) →
      ∀ w, windowCount
        (past ++ (runRpm cap ops (past.filter (fun e => decide (t0 - 60 < e)))).2) w ≤ cap := by
  intro ops
  induction ops with
  | nil =>
    intro past t0 _ _ _ hbound w
    simpa [runRpm] using hbound w
  | cons op rest ih =>
    intro past t0 hpw hops hpast hbound w
    obtain ⟨hop_t0, hop_0⟩ := hops op (List.mem_cons_self _ _)
    have hprune : rpmPrune op (past.filter (fun e => decide (t0 - 60 < e)))
        = past.filter (fun e => decide (op - 60 < e)) :=
      rpmPrune_filter past t0 op (fun e he => (hpast e he).1) (le_of_lt hop_t0)
    have hrest : ∀ e ∈ rest, op < e ∧ 0 ≤ e := by
      intro e he
      exact ⟨(List.pairwise_cons.mp hpw).1 e he, (hops e (List.mem_cons_of_mem _ he)).2⟩
    by_cases hgr : (past.filter (fun e => decide (op - 60 < e))).length < cap
    · -- the call is granted
      have hnotmem : op ∉ past.filter (fun e => decide (op - 60 < e)) := by
        intro hmem
        have h1 := (hpast _ (List.mem_of_mem_filter hmem)).2
        linarith
      have hzadd : rpmZadd op (past.filter (fun e => decide (op - 60 < e)))
          = past.filter (fun e => decide (op - 60 < e)) ++ [op] := by
        unfold rpmZadd
        rw [if_neg hnotmem]
      have hfilter' : (past ++ [op]).filter (fun e => decide (op - 60 < e))
          = past.filter (fun e => decide (op - 60 < e)) ++ [op] := by
        rw [List.filter_append]
        congr 1
        simp [show op - 60 < op by linarith]
      have hpast' : ∀ e ∈ past ++ [op], 0 ≤ e ∧ e ≤ op := by
        intro e he
        rcases List.mem_append.mp he with h | h
        · exact ⟨(hpast e h).1, le_trans (hpast e h).2 (le_of_lt hop_t0)⟩
        · simp only [List.mem_singleton] at h
          subst h
          exact ⟨hop_0, le_refl _⟩
      have hbound' : ∀ w', windowCount (past ++ [op]) w' ≤ cap := by
        intro w'
        rw [windowCount_append]
        by_cases hw : w' ≤ op ∧ op < w' + 60
        · have hwin : windowCount [op] w' = 1 := by
            simp [windowCount, hw.1, hw.2]
          have hmono : windowCount past w'
              ≤ (past.filter (fun e => decide (op - 60 < e))).length := by
            unfold windowCount
            apply length_filter_mono
            intro a ha
            simp only [Bool.and_eq_true, decide_eq_true_eq] at ha ⊢
            have := hw.2
            linarith [ha.1]
          omega
        · have hwin : windowCount [op] w' = 0 := by
            rcases not_and_or.mp hw with h | h
            · simp [windowCount, not_le.mp h |>.not_le]
            · simp [windowCount, not_lt.mp h |>.not_lt]
          rw [hwin]
          simpa using hbound w'
      have hstep := ih (past ++ [op]) op (List.pairwise_cons.mp hpw).2 hrest hpast' hbound'
      rw [hfilter'] at hstep
      rw [runRpm_cons, acquireRequest_eq cap hcap, hprune, if_pos hgr, hzadd]
      simpa [List.append_assoc] using hstep w
    · -- the call is denied
      have hpast' : ∀ e ∈ past, 0 ≤ e ∧ e ≤ op := by
        intro e he
        exact ⟨(hpast e he).1, le_trans (hpast e he).2 (le_of_lt hop_t0)⟩
      have hstep := ih past op (List.pairwise_cons.mp hpw).2 hrest hpast' hbound
      rw [runRpm_cons, acquireRequest_eq cap hcap, hprune, if_neg hgr]
      simpa using hstep w

/-- A reservation larger than the whole cap can never be admitted: the
window sum is nonnegative, so sum + n always exceeds the cap. -/
lemma acquireTokens_deny (cap n : ℕ) (hcap : cap ≠ 0) (hbig : cap < n)
    (now : ℚ) (s : List (ℚ × ℕ)) : (acquireTokens cap now n s).1 = false := by
  rw [acquireTokens_eq cap hcap]
  have h : ¬ (tpmSum (tpmPrune now s) + n ≤ cap) := by omega
  rw [if_neg h]

end RateLimiter

namespace Chunking

/-- When every acquire is denied, the reservation loop runs its full attempt
budget: starting at attempt a with a + d = 20 it makes exactly d calls and
gives up. -/
lemma tpmWaitLoop_denied (cap est : ℕ) (hcap : cap ≠ 0) (hbig : cap < est)
    (stateAt : ℕ → List (ℚ × ℕ)) (timeAt : ℕ → ℚ) :
    ∀ d a, a + d = 20 → tpmWaitLoop cap est stateAt timeAt a = (false, d) := by
  intro d
  induction d with
  | zero =>
    intro a ha
    rw [tpmWaitLoop]
    have h : ¬ (a < 20) := by omega
    rw [if_neg h]
  | succ d ih =>
    intro a ha
    rw [tpmWaitLoop]
    have h1 : a < 20 := by omega
    rw [if_pos h1]
    have hden := RateLimiter.acquireTokens_deny cap est hcap hbig (timeAt a) (stateAt a)
    simp only [hden, Bool.false_eq_true, if_false, ih (a + 1) (by omega)]

/-- Master induction for the wave loop: attempt bound, head of the trace,
adjacency (a failed attempt is followed by the same wave), and the total
pause accounting (every failure that has a successor pauses for
retry_after or 60 s). -/
lemma runWaves_spec (numWaves : ℕ) (oracle : ℕ → Option (Option ℕ)) :
    ∀ m wave retries attempt,
      (numWaves - wave) * 11 + (10 - retries) ≤ m →
      retries ≤ 10 →
      (runWaves numWaves oracle wave retries attempt).attempts
          ≤ (numWaves - wave) * 11 - retries
      ∧ ((runWaves numWaves oracle wave retries attempt).trace.head?
            = if wave < numWaves then some (wave, oracle attempt) else none)
      ∧ traceAdjacencyOk (runWaves numWaves oracle wave retries attempt).trace = true
      ∧ (runWaves numWaves oracle wave retries attempt).totalWait
          = ((((runWaves numWaves oracle wave retries attempt).trace.dropLast).filterMap
              (fun e => e.2)).map wavePause).sum := by
  intro m
  induction m with
  | zero =>
    intro wave retries attempt hm _
    have hw : ¬ (wave < numWaves) := by omega
    rw [runWaves, dif_neg hw]
    simp [traceAdjacencyOk, hw]
  | succ m ih =>
    intro wave retries attempt hm hr
    by_cases hw : wave < numWaves
    · rw [runWaves, dif_pos hw]
      cases horacle : oracle attempt with
      | none =>
        simp only []
        have hrec := ih (wave + 1) 0 (attempt + 1) (by omega) (by omega)
        refine ⟨?_, by simp [hw, horacle], ?_, ?_⟩
        · have h1 := hrec.1
          omega
        · cases htr : (runWaves numWaves oracle (wave + 1) 0 (attempt + 1)).trace with
          | nil => simp [htr, traceAdjacencyOk]
          | cons b rest =>
            have hadj := hrec.2.2.1
            rw [htr] at hadj
            simp [htr, traceAdjacencyOk, hadj]
        · have htw := hrec.2.2.2
          cases htr : (runWaves numWaves oracle (wave + 1) 0 (attempt + 1)).trace with
          | nil =>
            rw [htr] at htw
            simp [htr, htw]
          | cons b rest =>
            rw [htr] at htw
            simp [htr, List.dropLast_cons_of_ne_nil, htw]
      | some ra =>
        simp only []
        by_cases hcapd : 10 < retries + 1
        · rw [if_pos hcapd]
          refine ⟨by simp only []; omega, by simp [hw, horacle],
            by simp [traceAdjacencyOk], by simp⟩
        · rw [if_neg hcapd]
          have hrec := ih wave (retries + 1) (attempt + 1) (by omega) (by omega)
          have hhead := hrec.2.1
          rw [if_pos hw] at hhead
          cases htr : (runWaves numWaves oracle wave (retries + 1) (attempt + 1)).trace with
          | nil => rw [htr] at hhead; simp at hhead
          | cons b rest =>
            rw [htr] at hhead
            simp only [List.head?_cons, Option.some.injEq] at hhead
            have hb1 : b.1 = wave := by simp [hhead]
            refine ⟨?_, by simp [hw, horacle], ?_, ?_⟩
            · have h1 := hrec.1
              simp only []
              omega
            · have hadj := hrec.2.2.1
              rw [htr] at hadj
              simp [htr, traceAdjacencyOk, hadj, hb1]
            · have htw := hrec.2.2.2
              rw [htr] at htw
              simp [htr, List.dropLast_cons_of_ne_nil, htw, wavePause]
    · rw [runWaves, dif_neg hw]
      simp [traceAdjacencyOk, hw]

end Chunking

namespace Workers

open Pipeline

/-- The add-chunk loop only appends mapping rows and collects the successful
episode ids; everything else in the state is untouched. -/
lemma kgAddChunks_spec (a : ℕ → Option String) (o d : String) :
    ∀ (l : List ChunkRow) (i : ℕ) (st : St),
      kgAddChunks a o d l i st
        = ({ st with mappings := st.mappings ++ kgNewMappings a o d l i },
           kgEpisodeIds a l i) := by
  intro l
  induction l with
  | nil => intro i st; simp [kgAddChunks, kgNewMappings, kgEpisodeIds]
  | cons c rest ih =>
    intro i st
    cases ha : a i with
    | some eid =>
      simp [kgAddChunks, kgNewMappings, kgEpisodeIds, ha, ih]
    | none =>
      simp [kgAddChunks, kgNewMappings, kgEpisodeIds, ha, ih]

/-- Every mapping row the loop inserts belongs to the ingested document. -/
lemma kgNewMappings_doc (a : ℕ → Option String) (o d : String) :
    ∀ (l : List ChunkRow) (i : ℕ), ∀ mp ∈ kgNewMappings a o d l i, mp.documentId = d := by
  intro l
  induction l with
  | nil => intro i mp hmp; simp [kgNewMappings] at hmp
  | cons c rest ih =>
    intro i mp hmp
    cases ha : a i with
    | some eid =>
      rw [kgNewMappings, ha] at hmp
      rcases List.mem_cons.mp hmp with h | h
      · rw [h]
      · exact ih (i + 1) mp h
    | none =>
      rw [kgNewMappings, ha] at hmp
      exact ih (i + 1) mp hmp

/-- One mapping row per successful episode. -/
lemma kgNewMappings_length (a : ℕ → Option String) (o d : String) :
    ∀ (l : List ChunkRow) (i : ℕ),
      (kgNewMappings a o d l i).length = (kgEpisodeIds a l i).length := by
  intro l
  induction l with
  | nil => intro i; simp [kgNewMappings, kgEpisodeIds]
  | cons c rest ih =>
    intro i
    cases ha : a i with
    | some eid => rw [kgNewMappings, kgEpisodeIds, ha]; simp [ih]
    | none => rw [kgNewMappings, kgEpisodeIds, ha]; exact ih (i + 1)

/-- At most one episode per chunk. -/
lemma kgEpisodeIds_length_le (a : ℕ → Option String) :
    ∀ (l : List ChunkRow) (i : ℕ), (kgEpisodeIds a l i).length ≤ l.length := by
  intro l
  induction l with
  | nil => intro i; simp [kgEpisodeIds]
  | cons c rest ih =>
    intro i
    cases ha : a i with
    | some eid =>
      rw [kgEpisodeIds, ha]
      simpa using ih (i + 1)
    | none =>
      rw [kgEpisodeIds, ha]
      exact le_trans (ih (i + 1)) (by simp)

/-- A failed chunk makes the episode list strictly shorter than the chunk
list. -/
lemma kgEpisodeIds_length_lt (a : ℕ → Option String) :
    ∀ (l : List ChunkRow) (i : ℕ),
      (∃ j, j < l.length ∧ a (i + j) = none) →
      (kgEpisodeIds a l i).length < l.length := by
  intro l
  induction l with
  | nil => intro i h; rcases h with ⟨j, hj, _⟩; simp at hj
  | cons c rest ih =>
    intro i h
    rcases h with ⟨j, hj, hnone⟩
    cases j with
    | zero =>
      simp only [Nat.add_zero] at hnone
      rw [kgEpisodeIds, hnone]
      have := kgEpisodeIds_length_le a rest (i + 1)
      simp only [List.length_cons]
      omega
    | succ k =>
      cases ha : a i with
      | some eid =>
        rw [kgEpisodeIds, ha]
        have hlt := ih (i + 1) ⟨k, by simpa using hj, by rw [← hnone]; ring_nf⟩
        simp only [List.length_cons]
        omega
      | none =>
        rw [kgEpisodeIds, ha]
        have := kgEpisodeIds_length_le a rest (i + 1)
        simp only [List.length_cons]
        omega

/-- When every chunk succeeds there is one episode per chunk. -/
lemma kgEpisodeIds_length_eq (a : ℕ → Option String) :
    ∀ (l : List ChunkRow) (i : ℕ),
      (∀ j, j < l.length → a (i + j) ≠ none) →
      (kgEpisodeIds a l i).length = l.length := by
  intro l
  induction l with
  | nil => intro i _; simp [kgEpisodeIds]
  | cons c rest ih =>
    intro i h
    have h0 := h 0 (by simp)
    simp only [Nat.add_zero] at h0
    cases ha : a i with
    | some eid =>
      rw [kgEpisodeIds, ha]
      have := ih (i + 1) (fun j hj => by
        have := h (j + 1) (by simpa using hj)
        rw [show i + (j + 1) = i + 1 + j by ring] at this
        exact this)
      simp [this]
    | none => exact absurd ha h0

/-- Rows selected out of a guarded update map by their key are images of the
update function. -/
lemma mem_map_guarded_update {α : Type} (idOf : α → String) (l : List α) (pid : String)
    (g : α → α) :
    ∀ y ∈ l.map (fun x => if idOf x == pid then g x else x), idOf y = pid →
      ∃ x0 ∈ l, y = g x0 := by
  intro y hy hid
  rcases List.mem_map.mp hy with ⟨x0, hx0, hx0eq⟩
  by_cases h : idOf x0 == pid
  · rw [if_pos h] at hx0eq
    exact ⟨x0, hx0, hx0eq.symm⟩
  · rw [if_neg h] at hx0eq
    exfalso
    apply h
    rw [← hx0eq] at hid
    simp [hid]

/-- Deleting all of a document's mapping rows leaves none behind. -/
lemma mappings_delete_then_query (l : List Mapping) (d : String) :
    (l.filter (fun m => m.documentId != d)).filter (fun m => m.documentId == d) = [] := by
  rw [List.filter_filter]
  have : ∀ m : Mapping, ((m.documentId == d) && (m.documentId != d)) = false := by
    intro m
    by_cases h : m.documentId == d <;> simp_all [bne]
  simp [this]

/-- kgInner on a document with chunks where at least one add_episode fails:
the mapping rows are inserted then all of the document's rows deleted, the
successfully created episode ids are submitted for removal, the phase is
marked failed with error_type PartialIngestFailure, and PartialIngestError
is raised. -/
lemma kgInner_fail_projections (a : ℕ → Option String) (st : St)
    (pipelineJobId documentId : String) (retryCount : ℕ) (parentPhaseId : Option ℕ)
    (clerkOrgId : String) (now : ℚ)
    (hchunks : st.chunks.filter (fun c => c.documentId == documentId) ≠ [])
    (hfail : ∃ j, j < (st.chunks.filter (fun c => c.documentId == documentId)).length
      ∧ a j = none) :
    (kgInner a st pipelineJobId documentId retryCount parentPhaseId clerkOrgId now).1.mappings
      = (st.mappings ++ kgNewMappings a clerkOrgId documentId
          (st.chunks.filter (fun c => c.documentId == documentId)) 0).filter
          (fun m => m.documentId != documentId)
    ∧ (kgInner a st pipelineJobId documentId retryCount parentPhaseId clerkOrgId now).1.removals
      = st.removals ++ kgEpisodeIds a (st.chunks.filter (fun c => c.documentId == documentId)) 0
    ∧ (∃ w ∈ (kgInner a st pipelineJobId documentId retryCount parentPhaseId clerkOrgId
          now).1.phaseWrites,
        w.status = PhaseStatus.failed ∧ w.errorType = some "PartialIngestFailure")
    ∧ (kgInner a st pipelineJobId documentId retryCount parentPhaseId clerkOrgId now).2.2
      = .error (RetryPolicy.partialIngestError "Partial KG ingest failure")
    ∧ (kgInner a st pipelineJobId documentId retryCount parentPhaseId clerkOrgId now).2.1
      = some st.nextPhaseId := by
  have hlt := kgEpisodeIds_length_lt a
    (st.chunks.filter (fun c => c.documentId == documentId)) 0
    (by rcases hfail with ⟨j, hj, hn⟩; exact ⟨j, hj, by simpa using hn⟩)
  have hempty : (st.chunks.filter (fun c => c.documentId == documentId)).isEmpty = false := by
    cases h : (st.chunks.filter (fun c => c.documentId == documentId)).isEmpty
    · rfl
    · exact absurd (List.isEmpty_iff.mp h) hchunks
  have hgt : 0 < (st.chunks.filter (fun c => c.documentId == documentId)).length
      - (kgEpisodeIds a (st.chunks.filter (fun c => c.documentId == documentId)) 0).length := by
    omega
  unfold kgInner
  by_cases hrc : 0 < retryCount <;>
    simp only [hrc, if_true, if_false, updateJobMetadata, St.updateJobRow, St.insertPhase,
      St.logPhase, St.updatePhaseRow, St.enqueue, hempty, Bool.false_eq_true,
      kgAddChunks_spec, hgt] <;>
    refine ⟨by simp, by simp,
      ⟨{ phaseId := st.nextPhaseId, status := PhaseStatus.failed,
         errorType := some "PartialIngestFailure" }, by simp, rfl, rfl⟩,
      by simp, by simp⟩

/-- kgInner when every add_episode succeeds: one mapping row per chunk is
appended and the phase and job complete. -/
lemma kgInner_success_projections (a : ℕ → Option String) (st : St)
    (pipelineJobId documentId : String) (retryCount : ℕ) (parentPhaseId : Option ℕ)
    (clerkOrgId : String) (now : ℚ)
    (hchunks : st.chunks.filter (fun c => c.documentId == documentId) ≠ [])
    (hsucc : ∀ j, j < (st.chunks.filter (fun c => c.documentId == documentId)).length
      → a j ≠ none) :
    (kgInner a st pipelineJobId documentId retryCount parentPhaseId clerkOrgId now).1.mappings
      = st.mappings ++ kgNewMappings a clerkOrgId documentId
          (st.chunks.filter (fun c => c.documentId == documentId)) 0
    ∧ (kgInner a st pipelineJobId documentId retryCount parentPhaseId clerkOrgId now).2.2
      = .ok { status := "success" } := by
  have heq := kgEpisodeIds_length_eq a
    (st.chunks.filter (fun c => c.documentId == documentId)) 0
    (fun j hj => by simpa using hsucc j hj)
  have hempty : (st.chunks.filter (fun c => c.documentId == documentId)).isEmpty = false := by
    cases h : (st.chunks.filter (fun c => c.documentId == documentId)).isEmpty
    · rfl
    · exact absurd (List.isEmpty_iff.mp h) hchunks
  have hngt : ¬ (0 < (st.chunks.filter (fun c => c.documentId == documentId)).length
      - (kgEpisodeIds a (st.chunks.filter (fun c => c.documentId == documentId)) 0).length) := by
    omega
  unfold kgInner
  by_cases hrc : 0 < retryCount <;>
    simp only [hrc, if_true, if_false, updateJobMetadata, St.updateJobRow, St.insertPhase,
      St.logPhase, St.updatePhaseRow, St.enqueue, hempty, Bool.false_eq_true,
      kgAddChunks_spec, hngt] <;>
    exact ⟨by simp, by simp⟩

/-- The exception handler of ingest_kg_task never touches the mapping or
removal tables, and only appends to the phase-write log. -/
lemma ingestKgTask_error_projections (a : ℕ → Option String) (st : St)
    (pipelineJobId documentId : String) (retryCount : ℕ) (parentPhaseId : Option ℕ)
    (clerkOrgId : String) (now : ℚ) (e : PyExn) (pid : ℕ)
    (herr : (kgInner a st pipelineJobId documentId retryCount parentPhaseId clerkOrgId
      now).2.2 = .error e)
    (hsome : (kgInner a st pipelineJobId documentId retryCount parentPhaseId clerkOrgId
      now).2.1 = some pid) :
    (ingestKgTask a st pipelineJobId documentId retryCount parentPhaseId clerkOrgId
        now).1.mappings
      = (kgInner a st pipelineJobId documentId retryCount parentPhaseId clerkOrgId
          now).1.mappings
    ∧ (ingestKgTask a st pipelineJobId documentId retryCount parentPhaseId clerkOrgId
        now).1.removals
      = (kgInner a st pipelineJobId documentId retryCount parentPhaseId clerkOrgId
          now).1.removals
    ∧ (∀ w ∈ (kgInner a st pipelineJobId documentId retryCount parentPhaseId clerkOrgId
          now).1.phaseWrites,
        w ∈ (ingestKgTask a st pipelineJobId documentId retryCount parentPhaseId
          clerkOrgId now).1.phaseWrites) := by
  unfold ingestKgTask
  simp only []
  rw [herr, hsome]
  by_cases hretry : retryCount < RetryPolicy.MAX_RETRIES
      && RetryPolicy.isRetryableError e <;>
    simp only [hretry, if_true, if_false, updateJobMetadata, St.updateJobRow,
      St.insertPhase, St.logPhase, St.updatePhaseRow, St.enqueue] <;>
    refine ⟨by simp, by simp, ?_⟩ <;>
    intro w hw <;>
    simp [hw]

/-- On an ok result ingest_kg_task returns kgInner's state unchanged. -/
lemma ingestKgTask_ok_state (a : ℕ → Option String) (st : St)
    (pipelineJobId documentId : String) (retryCount : ℕ) (parentPhaseId : Option ℕ)
    (clerkOrgId : String) (now : ℚ) (res : HandlerResult)
    (hok : (kgInner a st pipelineJobId documentId retryCount parentPhaseId clerkOrgId
      now).2.2 = .ok res) :
    (ingestKgTask a st pipelineJobId documentId retryCount parentPhaseId clerkOrgId now).1
      = (kgInner a st pipelineJobId documentId retryCount parentPhaseId clerkOrgId
          now).1 := by
  unfold ingestKgTask
  simp only []
  rw [hok]

/-- Lists: taking one element past a prefix keeps the prefix and that element. -/
lemma take_append_cons {α : Type} (l₁ : List α) (a : α) (l₂ : List α) :
    (l₁ ++ a :: l₂).take (l₁.length + 1) = l₁ ++ [a] := by
  induction l₁ with
  | nil => simp
  | cons x xs ih => simpa using ih

/-- The retry-metadata clear at the top of each worker touches only the job
rows: the phase-write log is unchanged. -/
lemma clearRetry_phaseWrites (st : St) (jid : String) (rc : ℕ) :
    (if 0 < rc then updateJobMetadata st jid none (some rc) none else st).phaseWrites
      = st.phaseWrites := by
  split <;> rfl

/-- The retry-metadata clear does not advance the phase-id counter. -/
lemma clearRetry_nextPhaseId (st : St) (jid : String) (rc : ℕ) :
    (if 0 < rc then updateJobMetadata st jid none (some rc) none else st).nextPhaseId
      = st.nextPhaseId := by
  split <;> rfl

/-- The retry-metadata clear does not touch the chunk table. -/
lemma clearRetry_chunks (st : St) (jid : String) (rc : ℕ) :
    (if 0 < rc then updateJobMetadata st jid none (some rc) none else st).chunks
      = st.chunks := by
  split <;> rfl

/-- The try-block of extract_task consults no pipeline_job row: on every
state it inserts the processing extraction phase (logged right after the
pre-existing writes), and only a success result comes back through it. -/
lemma extractInner_inserts_phase (load : Except PyExn Unit) (ex : Except PyExn String)
    (st : St) (pipelineJobId documentId rawLocation : String) (retryCount : ℕ)
    (parentPhaseId : Option ℕ) (now : ℚ) :
    (∃ tl, (extractInner load ex st pipelineJobId documentId rawLocation retryCount
        parentPhaseId now).1.phaseWrites
      = st.phaseWrites ++ { phaseId := st.nextPhaseId, status := PhaseStatus.processing, errorType := none } :: tl)
    ∧ ∀ res, (extractInner load ex st pipelineJobId documentId rawLocation retryCount
        parentPhaseId now).2.2 = .ok res → res.status = "success" := by
  unfold extractInner
  cases load with
  | error e =>
    refine ⟨⟨[], ?_⟩, ?_⟩
    · simp [St.insertPhase, clearRetry_phaseWrites, clearRetry_nextPhaseId]
    · intro res h
      simp at h
  | ok u =>
    cases ex with
    | error e =>
      refine ⟨⟨[], ?_⟩, ?_⟩
      · simp [St.insertPhase, clearRetry_phaseWrites, clearRetry_nextPhaseId]
      · intro res h
        simp at h
    | ok text =>
      cases htext : text.length == 0 with
      | true =>
        refine ⟨⟨[], ?_⟩, ?_⟩
        · simp [htext, St.insertPhase, clearRetry_phaseWrites, clearRetry_nextPhaseId]
        · intro res h
          simp [htext] at h
      | false =>
        refine ⟨⟨[{ phaseId := st.nextPhaseId, status := PhaseStatus.completed, errorType := none }], ?_⟩, ?_⟩
        · simp [htext, St.insertPhase, St.logPhase, St.updatePhaseRow, St.updateJobRow,
            St.enqueue, clearRetry_phaseWrites, clearRetry_nextPhaseId, List.append_assoc]
        · intro res h
          simp [htext] at h
          subst h
          rfl

/-- extract_task inserts its processing extraction phase on every state and
never returns a skipped result: the extraction handler has no job check. -/
lemma extractTask_proceeds (load : Except PyExn Unit) (ex : Except PyExn String)
    (st : St) (pipelineJobId documentId rawLocation : String) (retryCount : ℕ)
    (parentPhaseId : Option ℕ) (now : ℚ) :
    (extractTask load ex st pipelineJobId documentId rawLocation retryCount
        parentPhaseId now).1.phaseWrites.take (st.phaseWrites.length + 1)
      = st.phaseWrites ++ [{ phaseId := st.nextPhaseId, status := PhaseStatus.processing, errorType := none }]
    ∧ (extractTask load ex st pipelineJobId documentId rawLocation retryCount
        parentPhaseId now).2.status ≠ "skipped" := by
  obtain ⟨⟨tl, htl⟩, hok⟩ := extractInner_inserts_phase load ex st pipelineJobId
    documentId rawLocation retryCount parentPhaseId now
  unfold extractTask
  simp only []
  cases herr : (extractInner load ex st pipelineJobId documentId rawLocation retryCount
      parentPhaseId now).2.2 with
  | ok res =>
    refine ⟨?_, ?_⟩
    · simp only []
      rw [htl]
      exact take_append_cons _ _ _
    · simp only []
      rw [hok res herr]
      decide
  | error e =>
    cases hpid : (extractInner load ex st pipelineJobId documentId rawLocation retryCount
        parentPhaseId now).2.1
    all_goals by_cases hretry : retryCount < RetryPolicy.MAX_RETRIES
      && RetryPolicy.isRetryableError e
    all_goals simp only [hretry, Bool.false_eq_true, eq_self_iff_true, if_true, if_false,
      St.updatePhaseRow, St.logPhase, St.insertPhase, updateJobMetadata, St.updateJobRow,
      St.enqueue]
    all_goals refine ⟨?_, by simp⟩
    all_goals rw [htl]
    all_goals simp only [List.append_assoc, List.cons_append, take_append_cons]

/-- The try-block of chunk_task consults no pipeline_job row: on every state
it inserts the processing chunking phase (logged right after the pre-existing
writes), and only a success result comes back through it. -/
lemma chunkInner_inserts_phase (loadText : Except PyExn String) (contexts : ℕ → String)
    (st : St) (pipelineJobId documentId textLocation : String) (retryCount : ℕ)
    (parentPhaseId : Option ℕ) (sourceName : String) (now : ℚ) :
    (∃ tl, (chunkInner loadText contexts st pipelineJobId documentId textLocation
        retryCount parentPhaseId sourceName now).1.phaseWrites
      = st.phaseWrites ++ { phaseId := st.nextPhaseId, status := PhaseStatus.processing, errorType := none } :: tl)
    ∧ ∀ res, (chunkInner loadText contexts st pipelineJobId documentId textLocation
        retryCount parentPhaseId sourceName now).2.2 = .ok res →
        res.status = "success" := by
  unfold chunkInner
  cases loadText with
  | error e =>
    refine ⟨⟨[], ?_⟩, ?_⟩
    · simp [St.insertPhase, clearRetry_phaseWrites, clearRetry_nextPhaseId]
    · intro res h
      simp at h
  | ok text =>
    cases hcd : (Chunking.chunkDocument 800 100 text (some sourceName) contexts).1 with
    | error e =>
      refine ⟨⟨[], ?_⟩, ?_⟩
      · simp [hcd, St.insertPhase, clearRetry_phaseWrites, clearRetry_nextPhaseId]
      · intro res h
        simp [hcd] at h
    | ok chunks =>
      refine ⟨⟨[{ phaseId := st.nextPhaseId, status := PhaseStatus.completed, errorType := none }], ?_⟩, ?_⟩
      · simp [hcd, St.insertPhase, St.logPhase, St.updatePhaseRow, St.updateJobRow,
          St.enqueue, clearRetry_phaseWrites, clearRetry_nextPhaseId, List.append_assoc]
      · intro res h
        simp [hcd] at h
        subst h
        rfl

/-- chunk_task inserts its processing chunking phase on every state and never
returns a skipped result: the chunking handler has no job check. -/
lemma chunkTask_proceeds (loadText : Except PyExn String) (contexts : ℕ → String)
    (st : St) (pipelineJobId documentId textLocation : String) (retryCount : ℕ)
    (parentPhaseId : Option ℕ) (sourceName : String) (now : ℚ) :
    (chunkTask loadText contexts st pipelineJobId documentId textLocation retryCount
        parentPhaseId sourceName now).1.phaseWrites.take (st.phaseWrites.length + 1)
      = st.phaseWrites ++ [{ phaseId := st.nextPhaseId, status := PhaseStatus.processing, errorType := none }]
    ∧ (chunkTask loadText contexts st pipelineJobId documentId textLocation retryCount
        parentPhaseId sourceName now).2.status ≠ "skipped" := by
  obtain ⟨⟨tl, htl⟩, hok⟩ := chunkInner_inserts_phase loadText contexts st pipelineJobId
    documentId textLocation retryCount parentPhaseId sourceName now
  unfold chunkTask
  simp only []
  cases herr : (chunkInner loadText contexts st pipelineJobId documentId textLocation
      retryCount parentPhaseId sourceName now).2.2 with
  | ok res =>
    refine ⟨?_, ?_⟩
    · simp only []
      rw [htl]
      exact take_append_cons _ _ _
    · simp only []
      rw [hok res herr]
      decide
  | error e =>
    cases hpid : (chunkInner loadText contexts st pipelineJobId documentId textLocation
        retryCount parentPhaseId sourceName now).2.1
    all_goals by_cases hretry : retryCount < RetryPolicy.MAX_RETRIES
      && RetryPolicy.isRetryableError e
    all_goals simp only [hretry, Bool.false_eq_true, eq_self_iff_true, if_true, if_false,
      St.updatePhaseRow, St.logPhase, St.insertPhase, updateJobMetadata, St.updateJobRow,
      St.enqueue]
    all_goals refine ⟨?_, by simp⟩
    all_goals rw [htl]
    all_goals simp only [List.append_assoc, List.cons_append, take_append_cons]

/-- The try-block of ingest_kg_task consults no pipeline_job row: on every
state it inserts the processing kg_ingest phase (logged right after the
pre-existing writes), and only a success result comes back through it. -/
lemma kgInner_inserts_phase (a : ℕ → Option String) (st : St)
    (pipelineJobId documentId : String) (retryCount : ℕ) (parentPhaseId : Option ℕ)
    (clerkOrgId : String) (now : ℚ) :
    (∃ tl, (kgInner a st pipelineJobId documentId retryCount parentPhaseId clerkOrgId
        now).1.phaseWrites
      = st.phaseWrites ++ { phaseId := st.nextPhaseId, status := PhaseStatus.processing, errorType := none } :: tl)
    ∧ ∀ res, (kgInner a st pipelineJobId documentId retryCount parentPhaseId clerkOrgId
        now).2.2 = .ok res → res.status = "success" := by
  unfold kgInner
  simp only [St.insertPhase, clearRetry_phaseWrites, clearRetry_nextPhaseId,
    clearRetry_chunks, kgAddChunks_spec]
  cases hemp : (st.chunks.filter (fun c => c.documentId == documentId)).isEmpty with
  | true =>
    refine ⟨⟨[], ?_⟩, ?_⟩
    · simp [hemp]
    · intro res h
      simp [hemp] at h
  | false =>
    by_cases hfc : 0 < (st.chunks.filter (fun c => c.documentId == documentId)).length
      - (kgEpisodeIds a (st.chunks.filter (fun c => c.documentId == documentId)) 0).length
    · refine ⟨⟨[{ phaseId := st.nextPhaseId, status := PhaseStatus.failed, errorType := some "PartialIngestFailure" }], ?_⟩, ?_⟩
      · simp [hemp, hfc, St.logPhase, St.updatePhaseRow, St.updateJobRow,
          List.append_assoc]
      · intro res h
        simp [hemp, hfc] at h
    · refine ⟨⟨[{ phaseId := st.nextPhaseId, status := PhaseStatus.completed, errorType := none }], ?_⟩, ?_⟩
      · simp [hemp, hfc, St.logPhase, St.updatePhaseRow, St.updateJobRow,
          List.append_assoc]
      · intro res h
        simp [hemp, hfc] at h
        subst h
        rfl

/-- ingest_kg_task inserts its processing kg_ingest phase on every state and
never returns a skipped result: the kg handler has no job check. -/
lemma ingestKgTask_proceeds (a : ℕ → Option String) (st : St)
    (pipelineJobId documentId : String) (retryCount : ℕ) (parentPhaseId : Option ℕ)
    (clerkOrgId : String) (now : ℚ) :
    (ingestKgTask a st pipelineJobId documentId retryCount parentPhaseId clerkOrgId
        now).1.phaseWrites.take (st.phaseWrites.length + 1)
      = st.phaseWrites ++ [{ phaseId := st.nextPhaseId, status := PhaseStatus.processing, errorType := none }]
    ∧ (ingestKgTask a st pipelineJobId documentId retryCount parentPhaseId clerkOrgId
        now).2.status ≠ "skipped" := by
  obtain ⟨⟨tl, htl⟩, hok⟩ := kgInner_inserts_phase a st pipelineJobId documentId
    retryCount parentPhaseId clerkOrgId now
  unfold ingestKgTask
  simp only []
  cases herr : (kgInner a st pipelineJobId documentId retryCount parentPhaseId clerkOrgId
      now).2.2 with
  | ok res =>
    refine ⟨?_, ?_⟩
    · simp only []
      rw [htl]
      exact take_append_cons _ _ _
    · simp only []
      rw [hok res herr]
      decide
  | error e =>
    cases hpid : (kgInner a st pipelineJobId documentId retryCount parentPhaseId
        clerkOrgId now).2.1
    all_goals by_cases hretry : retryCount < RetryPolicy.MAX_RETRIES
      && RetryPolicy.isRetryableError e
    all_goals simp only [hretry, Bool.false_eq_true, eq_self_iff_true, if_true, if_false,
      St.updatePhaseRow, St.logPhase, St.insertPhase, updateJobMetadata, St.updateJobRow,
      St.enqueue]
    all_goals refine ⟨?_, by simp⟩
    all_goals rw [htl]
    all_goals simp only [List.append_assoc, List.cons_append, take_append_cons]

end Workers

end Mentorfy

open Mentorfy Mentorfy.RetryPolicy Mentorfy.RateLimiter Mentorfy.Chunking
open Mentorfy.Pipeline Mentorfy.Deletion Mentorfy.Helpers Mentorfy.Workers

/-- C5 counterexample: under a merely non-decreasing (monotone) clock the
TPM cap can be exceeded. The sorted-set member for a reservation is the
string "timestamp:tokens", so a second identical reservation at the same
instant is a no-op zadd: three acquire_tokens(50) calls at the same instant
against a cap of 100 are all granted, putting 150 tokens in one window. -/
theorem C5_counterexample_equal_timestamps :
    List.Chain' (fun a b : ℚ × ℕ => a.1 ≤ b.1) [((0 : ℚ), 50), (0, 50), (0, 50)]
    ∧ windowTokens (runTpm 100 [((0 : ℚ), 50), (0, 50), (0, 50)] []).2 0 = 150
    ∧ ¬ (150 ≤ 100) := by
  refine ⟨?_, ?_, by norm_num⟩
  · simp [List.chain'_cons]
  · norm_num [runTpm, acquireTokens, tpmPrune, tpmSum, tpmZadd, tpmWaitGo, windowTokens]

/-- C5 (amended to a strictly increasing clock): for every sequential trace
of acquire_request calls and every sequential trace of acquire_tokens calls
against one provider, with pairwise distinct (strictly increasing)
nonnegative timestamps and nonzero caps, every 60-second window holds at
most rpm-cap grants and at most tpm-cap granted tokens. -/
theorem C5_window_caps (rpmCap tpmCap : ℕ) (hr : rpmCap ≠ 0) (ht : tpmCap ≠ 0)
    (reqs : List ℚ) (toks : List (ℚ × ℕ))
    (hreqs : List.Pairwise (fun a b : ℚ => a < b) reqs)
    (hreqs0 : ∀ t ∈ reqs, 0 ≤ t)
    (htoks : List.Pairwise (fun a b : ℚ × ℕ => a.1 < b.1) toks)
    (htoks0 : ∀ e ∈ toks, 0 ≤ e.1) :
    (∀ w, windowCount (runRpm rpmCap reqs []).2 w ≤ rpmCap)
    ∧ (∀ w, windowTokens (runTpm tpmCap toks []).2 w ≤ tpmCap) := by
  constructor
  · intro w
    have h := runRpm_window_bound rpmCap hr reqs [] (-1) hreqs
      (fun e he => ⟨by linarith [hreqs0 e he], hreqs0 e he⟩)
      (fun e he => by simp at he)
      (fun w' => by simp [windowCount])
      w
    simpa using h
  · intro w
    have h := runTpm_window_bound tpmCap ht toks [] (-1) htoks
      (fun e he => ⟨by linarith [htoks0 e he], htoks0 e he⟩)
      (fun e he => by simp at he)
      (fun w' => by simp [windowTokens, tpmSum])
      w
    simpa using h

/-- C5 witness: the cap theorem applied to a concrete strictly increasing
trace. -/
theorem C5_window_caps_witness :
    ((1 : ℕ) ≠ 0) ∧ ((100 : ℕ) ≠ 0)
    ∧ (∀ w, windowCount (runRpm 1 [(0 : ℚ), 30] []).2 w ≤ 1)
    ∧ (∀ w, windowTokens (runTpm 100 [((0 : ℚ), 60), (30, 50)] []).2 w ≤ 100) := by
  have h := C5_window_caps 1 100 (by norm_num) (by norm_num)
    [(0 : ℚ), 30] [((0 : ℚ), 60), (30, 50)]
    (by norm_num [List.pairwise_cons])
    (by intro t htm; simp at htm; rcases htm with h | h <;> norm_num [h])
    (by norm_num [List.pairwise_cons])
    (by intro e hem; simp at hem; rcases hem with h | h <;> norm_num [h])
  exact ⟨by norm_num, by norm_num, h.1, h.2⟩

/-- C10: a token reservation strictly larger than the configured TPM cap is
denied in every window state; the chunker's reservation loop therefore makes
exactly 20 denied acquire calls and raises RuntimeError, so a chunk-context
request whose pre-estimated total exceeds the cap is never admitted. -/
theorem C10_oversized_reservation_never_admitted (cap : ℕ)
    (fullDocument chunkText : String) (documentTitle : Option String)
    (isFirstChunk : Bool) (stateAt : ℕ → List (ℚ × ℕ)) (timeAt : ℕ → ℚ)
    (hcap : cap ≠ 0)
    (hbig : cap < estimatedTokens fullDocument chunkText documentTitle isFirstChunk) :
    (∀ (now : ℚ) (s : List (ℚ × ℕ)),
      (acquireTokens cap now
        (estimatedTokens fullDocument chunkText documentTitle isFirstChunk) s).1 = false)
    ∧ (tpmWaitLoop cap (estimatedTokens fullDocument chunkText documentTitle isFirstChunk)
        stateAt timeAt 0).2 = 20
    ∧ reserveTpmCapacity cap
        (estimatedTokens fullDocument chunkText documentTitle isFirstChunk) stateAt timeAt
      = .error { name := "RuntimeError",
                 msg := "Failed to acquire TPM capacity after 20 attempts" } := by
  have hloop := tpmWaitLoop_denied cap
    (estimatedTokens fullDocument chunkText documentTitle isFirstChunk)
    hcap hbig stateAt timeAt 20 0 rfl
  refine ⟨fun now s => acquireTokens_deny cap _ hcap hbig now s, by rw [hloop], ?_⟩
  unfold reserveTpmCapacity
  rw [hloop]
  simp

/-- C10 witness: the oversized-reservation theorem at a concrete cap of 1
token against the estimate for an empty chunk. -/
theorem C10_oversized_reservation_witness :
    ((1 : ℕ) ≠ 0) ∧ (1 < estimatedTokens "" "" none false)
    ∧ reserveTpmCapacity 1 (estimatedTokens "" "" none false) (fun _ => []) (fun _ => 0)
      = .error { name := "RuntimeError",
                 msg := "Failed to acquire TPM capacity after 20 attempts" } :=
  ⟨by decide, by decide,
   (C10_oversized_reservation_never_admitted 1 "" "" none false (fun _ => [])
     (fun _ => 0) (by decide) (by decide)).2.2⟩

/-- C6: for every document, cancel marks exactly the non-terminal (neither
completed, failed nor cancelled) pipeline_jobs of that document and tenant as
cancelled with completed_at = now, and marks exactly their queued or
processing phases cancelled with completed_at = now and error message
"Document was deleted"; terminal jobs and phases are unchanged. Job ids are
assumed pairwise distinct (primary key). -/
theorem C6_cancel_marks_exactly_nonterminal (jobs : List Job) (phases : List Phase)
    (documentId orgId : String) (now : ℚ)
    (hnodup : (jobs.map (fun j => j.id)).Nodup) :
    (cancelPipelineJobsForDocument jobs phases documentId orgId now).1
      = jobs.map (fun j =>
          if j.documentId = documentId ∧ j.orgId = orgId
              ∧ j.status ≠ JobStatus.completed ∧ j.status ≠ JobStatus.failed
              ∧ j.status ≠ JobStatus.cancelled
          then { j with status := JobStatus.cancelled, completedAt := some now }
          else j)
    ∧ (cancelPipelineJobsForDocument jobs phases documentId orgId now).2.1
      = phases.map (fun p =>
          if (∃ j ∈ jobs, j.id = p.jobId ∧ j.documentId = documentId ∧ j.orgId = orgId
                ∧ j.status ≠ JobStatus.completed ∧ j.status ≠ JobStatus.failed
                ∧ j.status ≠ JobStatus.cancelled)
              ∧ (p.status = PhaseStatus.queued ∨ p.status = PhaseStatus.processing)
          then { p with status := PhaseStatus.cancelled, completedAt := some now,
                        errorMessage := some "Document was deleted" }
          else p) := by
  classical
  unfold cancelPipelineJobsForDocument
  set actB := fun j : Job => j.documentId == documentId && j.orgId == orgId
      && (j.status == JobStatus.processing || j.status == JobStatus.pending) with hactB
  have hact : ∀ j : Job, actB j = true ↔
      (j.documentId = documentId ∧ j.orgId = orgId ∧ j.status ≠ JobStatus.completed
        ∧ j.status ≠ JobStatus.failed ∧ j.status ≠ JobStatus.cancelled) := by
    intro j
    cases hs : j.status <;> simp [hactB, hs]
  have hcontains : ∀ j ∈ jobs,
      (((jobs.filter actB).map (fun j => j.id)).contains j.id = true ↔
        (j.documentId = documentId ∧ j.orgId = orgId ∧ j.status ≠ JobStatus.completed
          ∧ j.status ≠ JobStatus.failed ∧ j.status ≠ JobStatus.cancelled)) := by
    intro j hj
    rw [List.elem_iff]
    constructor
    · intro hmem
      rcases List.mem_map.mp hmem with ⟨j', hj', hid⟩
      rcases List.mem_filter.mp hj' with ⟨hj'mem, hj'act⟩
      have : j' = j := List.inj_on_of_nodup_map hnodup hj'mem hj hid
      subst this
      exact (hact j').mp hj'act
    · intro hA
      exact List.mem_map.mpr ⟨j, List.mem_filter.mpr ⟨hj, (hact j).mpr hA⟩, rfl⟩
  have hpcontains : ∀ x : String,
      (((jobs.filter actB).map (fun j => j.id)).contains x = true ↔
        ∃ j ∈ jobs, j.id = x ∧ j.documentId = documentId ∧ j.orgId = orgId
          ∧ j.status ≠ JobStatus.completed ∧ j.status ≠ JobStatus.failed
          ∧ j.status ≠ JobStatus.cancelled) := by
    intro x
    rw [List.elem_iff]
    constructor
    · intro hmem
      rcases List.mem_map.mp hmem with ⟨j', hj', hid⟩
      rcases List.mem_filter.mp hj' with ⟨hj'mem, hj'act⟩
      exact ⟨j', hj'mem, hid, (hact j').mp hj'act⟩
    · intro ⟨j', hj'mem, hid, hA⟩
      exact List.mem_map.mpr ⟨j', List.mem_filter.mpr ⟨hj'mem, (hact j').mpr hA⟩, hid⟩
  by_cases hemp : (jobs.filter actB).isEmpty
  · rw [if_pos hemp]
    have hnone : ∀ j ∈ jobs, actB j = false := by
      intro j hj
      by_contra hne
      have hT : actB j = true := by
        cases h : actB j
        · exact absurd h hne
        · rfl
      have : j ∈ jobs.filter actB := List.mem_filter.mpr ⟨hj, hT⟩
      rw [List.isEmpty_iff] at hemp
      simp [hemp] at this
    constructor
    · symm
      calc jobs.map _ = jobs.map id := by
            apply List.map_congr_left
            intro j hj
            have : ¬ (j.documentId = documentId ∧ j.orgId = orgId
                ∧ j.status ≠ JobStatus.completed ∧ j.status ≠ JobStatus.failed
                ∧ j.status ≠ JobStatus.cancelled) := by
              intro hA
              have := (hact j).mpr hA
              rw [hnone j hj] at this
              exact Bool.false_ne_true this
            simp [this]
        _ = jobs := List.map_id jobs
    · symm
      calc phases.map _ = phases.map id := by
            apply List.map_congr_left
            intro p hp
            have : ¬ ((∃ j ∈ jobs, j.id = p.jobId ∧ j.documentId = documentId
                  ∧ j.orgId = orgId ∧ j.status ≠ JobStatus.completed
                  ∧ j.status ≠ JobStatus.failed ∧ j.status ≠ JobStatus.cancelled)
                ∧ (p.status = PhaseStatus.queued ∨ p.status = PhaseStatus.processing)) := by
              rintro ⟨⟨j', hj'mem, _, hA⟩, _⟩
              have := (hact j').mpr hA
              rw [hnone j' hj'mem] at this
              exact Bool.false_ne_true this
            simp [this]
        _ = phases := List.map_id phases
  · rw [if_neg hemp]
    constructor
    · apply List.map_congr_left
      intro j hj
      by_cases hA : j.documentId = documentId ∧ j.orgId = orgId
          ∧ j.status ≠ JobStatus.completed ∧ j.status ≠ JobStatus.failed
          ∧ j.status ≠ JobStatus.cancelled
      · rw [if_pos ((hcontains j hj).mpr hA), if_pos hA]
      · rw [if_neg ?_, if_neg hA]
        intro hc
        exact hA ((hcontains j hj).mp hc)
    · apply List.map_congr_left
      intro p hp
      by_cases hS : p.status = PhaseStatus.queued ∨ p.status = PhaseStatus.processing
      · have hSb : (p.status == PhaseStatus.queued || p.status == PhaseStatus.processing)
            = true := by
          rcases hS with h | h <;> simp [h]
        by_cases hE : ∃ j ∈ jobs, j.id = p.jobId ∧ j.documentId = documentId
            ∧ j.orgId = orgId ∧ j.status ≠ JobStatus.completed
            ∧ j.status ≠ JobStatus.failed ∧ j.status ≠ JobStatus.cancelled
        · have hCond : (((jobs.filter actB).map (fun j => j.id)).contains p.jobId
              && (p.status == PhaseStatus.queued || p.status == PhaseStatus.processing))
              = true := by
            rw [(hpcontains p.jobId).mpr hE, hSb]
            rfl
          rw [if_pos hCond, if_pos ⟨hE, hS⟩]
        · have hCb : ((jobs.filter actB).map (fun j => j.id)).contains p.jobId = false := by
            cases h : ((jobs.filter actB).map (fun j => j.id)).contains p.jobId
            · rfl
            · exact absurd ((hpcontains p.jobId).mp h) hE
          have hCond : (((jobs.filter actB).map (fun j => j.id)).contains p.jobId
              && (p.status == PhaseStatus.queued || p.status == PhaseStatus.processing))
              = false := by
            rw [hCb]
            rfl
          rw [if_neg (fun hc => Bool.false_ne_true (hCond ▸ hc)),
            if_neg (fun hc => hE hc.1)]
      · have hSb : (p.status == PhaseStatus.queued || p.status == PhaseStatus.processing)
            = false := by
          cases h : p.status <;> simp_all
        have hCond : (((jobs.filter actB).map (fun j => j.id)).contains p.jobId
            && (p.status == PhaseStatus.queued || p.status == PhaseStatus.processing))
            = false := by
          rw [hSb]
          simp
        rw [if_neg (fun hc => Bool.false_ne_true (hCond ▸ hc)),
          if_neg (fun hc => hS hc.2)]

/-- C6 witness: the cancel theorem applied to one active job with a queued
phase next to a completed job with a completed phase. -/
theorem C6_cancel_witness :
    (([{ id := "j1", documentId := "d1", orgId := "o1", currentPhase := "extraction",
         status := JobStatus.processing },
       { id := "j2", documentId := "d1", orgId := "o1", currentPhase := "completed",
         status := JobStatus.completed }] : List Job).map (fun j => j.id)).Nodup
    ∧ (cancelPipelineJobsForDocument
        [{ id := "j1", documentId := "d1", orgId := "o1", currentPhase := "extraction",
           status := JobStatus.processing },
         { id := "j2", documentId := "d1", orgId := "o1", currentPhase := "completed",
           status := JobStatus.completed }]
        [{ id := 0, jobId := "j1", phase := "extraction", status := PhaseStatus.queued },
         { id := 1, jobId := "j2", phase := "kg_ingest", status := PhaseStatus.completed }]
        "d1" "o1" 5).1
      = [{ id := "j1", documentId := "d1", orgId := "o1", currentPhase := "extraction",
           status := JobStatus.cancelled, completedAt := some 5 },
         { id := "j2", documentId := "d1", orgId := "o1", currentPhase := "completed",
           status := JobStatus.completed }] := by
  constructor
  · decide
  · rw [(C6_cancel_marks_exactly_nonterminal _ _ "d1" "o1" 5 (by decide)).1]
    decide

/-- C1: in every kg_ingest run over a non-empty chunk set, if at least one
add_episode call fails (raises or returns no episode id) then before
returning the handler deletes every kg_entity_mapping row of the document,
submits remove_episode for each successfully created episode id (their own
failures are swallowed), writes the phase as failed with error_type
PartialIngestFailure, and raises PartialIngestError, which the retry policy
classifies as retryable; consequently, at return the document's mapping rows
are one per chunk (full success) or none at all. -/
theorem C1_kg_partial_failure_compensation (addEpisode : ℕ → Option String) (st : St)
    (pipelineJobId documentId : String) (retryCount : ℕ) (parentPhaseId : Option ℕ)
    (clerkOrgId : String) (now : ℚ)
    (hchunks : st.chunks.filter (fun c => c.documentId == documentId) ≠ [])
    (hclean : st.mappings.filter (fun m => m.documentId == documentId) = []) :
    ((∃ j, j < (st.chunks.filter (fun c => c.documentId == documentId)).length
        ∧ addEpisode j = none) →
      (ingestKgTask addEpisode st pipelineJobId documentId retryCount parentPhaseId
          clerkOrgId now).1.mappings.filter (fun m => m.documentId == documentId) = []
      ∧ (ingestKgTask addEpisode st pipelineJobId documentId retryCount parentPhaseId
          clerkOrgId now).1.removals
        = st.removals ++ kgEpisodeIds addEpisode
            (st.chunks.filter (fun c => c.documentId == documentId)) 0
      ∧ (∃ w ∈ (ingestKgTask addEpisode st pipelineJobId documentId retryCount
            parentPhaseId clerkOrgId now).1.phaseWrites,
          w.status = PhaseStatus.failed ∧ w.errorType = some "PartialIngestFailure")
      ∧ (kgInner addEpisode st pipelineJobId documentId retryCount parentPhaseId
          clerkOrgId now).2.2
        = .error (RetryPolicy.partialIngestError "Partial KG ingest failure")
      ∧ isRetryableError (RetryPolicy.partialIngestError "Partial KG ingest failure")
          = true)
    ∧ (((ingestKgTask addEpisode st pipelineJobId documentId retryCount parentPhaseId
          clerkOrgId now).1.mappings.filter (fun m => m.documentId == documentId)).length = 0
      ∨ ((ingestKgTask addEpisode st pipelineJobId documentId retryCount parentPhaseId
          clerkOrgId now).1.mappings.filter (fun m => m.documentId == documentId)).length
        = (st.chunks.filter (fun c => c.documentId == documentId)).length) := by
  by_cases hex : ∃ j, j < (st.chunks.filter (fun c => c.documentId == documentId)).length
      ∧ addEpisode j = none
  · have P := kgInner_fail_projections addEpisode st pipelineJobId documentId retryCount
      parentPhaseId clerkOrgId now hchunks hex
    have O := ingestKgTask_error_projections addEpisode st pipelineJobId documentId
      retryCount parentPhaseId clerkOrgId now
      (RetryPolicy.partialIngestError "Partial KG ingest failure") st.nextPhaseId
      P.2.2.2.1 P.2.2.2.2
    have hmapz : (ingestKgTask addEpisode st pipelineJobId documentId retryCount
        parentPhaseId clerkOrgId now).1.mappings.filter
        (fun m => m.documentId == documentId) = [] := by
      rw [O.1, P.1]
      exact mappings_delete_then_query _ documentId
    constructor
    · intro _
      refine ⟨hmapz, ?_, ?_, P.2.2.2.1, ?_⟩
      · rw [O.2.1, P.2.1]
      · rcases P.2.2.1 with ⟨w, hwmem, hwprop⟩
        exact ⟨w, O.2.2 w hwmem, hwprop⟩
      · simp [isRetryableError, NON_RETRYABLE_ERRORS, fullErrorType, clientError4xx,
          RetryPolicy.partialIngestError]
    · left
      rw [hmapz]
      rfl
  · have hsucc : ∀ j, j < (st.chunks.filter (fun c => c.documentId == documentId)).length
        → addEpisode j ≠ none := by
      intro j hj hn
      exact hex ⟨j, hj, hn⟩
    have P := kgInner_success_projections addEpisode st pipelineJobId documentId
      retryCount parentPhaseId clerkOrgId now hchunks hsucc
    have O := ingestKgTask_ok_state addEpisode st pipelineJobId documentId retryCount
      parentPhaseId clerkOrgId now { status := "success" } P.2
    constructor
    · intro hx
      exact absurd hx hex
    · right
      rw [O, P.1, List.filter_append, hclean, List.nil_append]
      have hall : ∀ m ∈ kgNewMappings addEpisode clerkOrgId documentId
          (st.chunks.filter (fun c => c.documentId == documentId)) 0,
          (fun m : Mapping => m.documentId == documentId) m = true := by
        intro m hm
        have := kgNewMappings_doc addEpisode clerkOrgId documentId
          (st.chunks.filter (fun c => c.documentId == documentId)) 0 m hm
        simp [this]
      rw [List.filter_eq_self.mpr hall, kgNewMappings_length,
        kgEpisodeIds_length_eq addEpisode _ 0 (fun j hj => by simpa using hsucc j hj)]

/-- C1 witness: the compensation theorem on a two-chunk document whose
second add_episode call fails. -/
theorem C1_kg_partial_failure_witness :
    (({ St.empty with chunks := [{ id := 0, documentId := "d1", chunkIndex := 0, content := "a", context := "c0", tokenCount := 1 }, { id := 1, documentId := "d1", chunkIndex := 1, content := "b", context := "c1", tokenCount := 1 }] } : St).chunks.filter
        (fun c => c.documentId == "d1") ≠ [])
    ∧ (ingestKgTask (fun j => if j = 0 then some "ep0" else none)
        { St.empty with chunks := [{ id := 0, documentId := "d1", chunkIndex := 0, content := "a", context := "c0", tokenCount := 1 }, { id := 1, documentId := "d1", chunkIndex := 1, content := "b", context := "c1", tokenCount := 1 }] }
        "j1" "d1" 0 none "o1" 0).1.mappings.filter
        (fun m => m.documentId == "d1") = [] := by
  refine ⟨by decide, ?_⟩
  exact ((C1_kg_partial_failure_compensation (fun j => if j = 0 then some "ep0" else none)
    { St.empty with chunks := [{ id := 0, documentId := "d1", chunkIndex := 0, content := "a", context := "c0", tokenCount := 1 }, { id := 1, documentId := "d1", chunkIndex := 1, content := "b", context := "c1", tokenCount := 1 }] }
    "j1" "d1" 0 none "o1" 0 (by decide) rfl).1 ⟨1, by decide, rfl⟩).1

/-- C3 counterexample: on the local-upload path (extraction queue), empty
extracted text is NOT completed with metadata.empty_extraction; extract_task
raises ValueError, the phase is marked failed with error_type ValueError,
and the job is marked failed (ValueError is non-retryable). -/
theorem C3_counterexample_local_path_empty_text_fails :
    (extractTask (.ok ()) (.ok "")
        { St.empty with jobs := [{ id := "j1", documentId := "d1", orgId := "o1", currentPhase := "extraction", status := JobStatus.processing }] }
        "j1" "d1" "raw_documents/d1.txt" 0 none 0).2.status = "failed"
    ∧ ((extractTask (.ok ()) (.ok "")
        { St.empty with jobs := [{ id := "j1", documentId := "d1", orgId := "o1", currentPhase := "extraction", status := JobStatus.processing }] }
        "j1" "d1" "raw_documents/d1.txt" 0 none 0).1.phaseWrites.map
          (fun w => (w.status, w.errorType)))
      = [(PhaseStatus.processing, none), (PhaseStatus.failed, some "ValueError")]
    ∧ ((extractTask (.ok ()) (.ok "")
        { St.empty with jobs := [{ id := "j1", documentId := "d1", orgId := "o1", currentPhase := "extraction", status := JobStatus.processing }] }
        "j1" "d1" "raw_documents/d1.txt" 0 none 0).1.jobs.map (fun j => j.status))
      = [JobStatus.failed] := by
  refine ⟨rfl, rfl, rfl⟩

/-- C3 (amended): the empty-extraction-is-not-an-error policy holds on the
external-source path (ingest_extract queue) only: there, empty extracted
text completes the extraction phase with metadata.empty_extraction = true,
marks the pipeline_job completed without enqueuing any later phase, and
updates the document's processing status. (On the local-upload path empty
text raises a non-retryable ValueError instead, failing phase and job.) -/
theorem C3_empty_extraction_external_path (mime text : String) (st : St)
    (pipelineJobId documentId sourceLocation : String) (retryCount : ℕ)
    (parentIngestPhaseId parentExtractPhaseId : Option ℕ) (storeRaw : Bool) (now : ℚ)
    (j : Job) (hfind : st.jobs.find? (fun jb => jb.id == pipelineJobId) = some j)
    (hnc : j.status ≠ JobStatus.cancelled)
    (hempty : text.length = 0 ∨ wordCount text = 0) :
    (ingestExtractTask (.ok mime) (.ok text) st pipelineJobId documentId sourceLocation
        retryCount parentIngestPhaseId parentExtractPhaseId storeRaw now).2
      = { status := "success", reason := some "empty_extraction" }
    ∧ (∃ p ∈ (ingestExtractTask (.ok mime) (.ok text) st pipelineJobId documentId
          sourceLocation retryCount parentIngestPhaseId parentExtractPhaseId storeRaw
          now).1.phases,
        p.phase = "extraction" ∧ p.status = PhaseStatus.completed
          ∧ p.emptyExtraction = true)
    ∧ (∀ jb ∈ (ingestExtractTask (.ok mime) (.ok text) st pipelineJobId documentId
          sourceLocation retryCount parentIngestPhaseId parentExtractPhaseId storeRaw
          now).1.jobs,
        jb.id = pipelineJobId →
          jb.status = JobStatus.completed ∧ jb.currentPhase = "completed")
    ∧ (∀ d ∈ (ingestExtractTask (.ok mime) (.ok text) st pipelineJobId documentId
          sourceLocation retryCount parentIngestPhaseId parentExtractPhaseId storeRaw
          now).1.documents,
        d.id = documentId → d.status = "available_to_ai")
    ∧ (ingestExtractTask (.ok mime) (.ok text) st pipelineJobId documentId sourceLocation
        retryCount parentIngestPhaseId parentExtractPhaseId storeRaw now).1.queueCalls
      = st.queueCalls := by
  have hbeq : (j.status == JobStatus.cancelled) = false := by
    cases h : j.status == JobStatus.cancelled
    · rfl
    · exact absurd (by simpa using h) hnc
  have hemptyb : (text.length == 0 || wordCount text == 0) = true := by
    rcases hempty with h | h <;> simp [h]
  unfold ingestExtractTask ingestExtractInner
  rw [hfind]
  simp only [hbeq, Bool.false_eq_true, if_false, hemptyb, if_true]
  by_cases hrc : 0 < retryCount <;>
    simp only [hrc, if_true, if_false, St.insertPhase, St.updatePhaseRow, St.logPhase,
      St.updateJobRow, updateJobMetadata, St.enqueue] <;>
    refine ⟨by simp, ?_, ?_, ?_, by simp⟩ <;>
    first
    | -- the completed extraction phase with the empty_extraction marker
      (refine ⟨_, List.mem_map_of_mem _
          (List.mem_append_right _ (List.mem_singleton_self _)), ?_⟩
       simp)
    | -- every job row carrying the job id was rewritten to completed
      (intro jb hjb hid
       rcases mem_map_guarded_update (fun j => j.id) _ pipelineJobId _ jb hjb hid with
         ⟨x0, hx0, hyeq⟩
       rw [hyeq]
       exact ⟨rfl, rfl⟩)
    | -- every document row carrying the document id was rewritten
      (intro d hd hid
       rcases mem_map_guarded_update (fun dr => dr.id) _ documentId _ d hd hid with
         ⟨x0, hx0, hyeq⟩
       rw [hyeq])

/-- C3 witness: the empty-extraction theorem applied to a processing job
whose transcription returns whitespace only. -/
theorem C3_empty_extraction_witness :
    (({ St.empty with jobs := [{ id := "j1", documentId := "d1", orgId := "o1", currentPhase := "ingestion", status := JobStatus.processing }] } : St).jobs.find?
        (fun jb => jb.id == "j1")
      = some { id := "j1", documentId := "d1", orgId := "o1", currentPhase := "ingestion", status := JobStatus.processing })
    ∧ (JobStatus.processing ≠ JobStatus.cancelled)
    ∧ ((" " : String).length = 0 ∨ wordCount " " = 0)
    ∧ (ingestExtractTask (.ok "audio/mpeg") (.ok " ")
        { St.empty with jobs := [{ id := "j1", documentId := "d1", orgId := "o1", currentPhase := "ingestion", status := JobStatus.processing }] }
        "j1" "d1" "gdrive://x" 0 none none false 0).2
      = { status := "success", reason := some "empty_extraction" } := by
  refine ⟨rfl, by decide, Or.inr (by decide), ?_⟩
  exact (C3_empty_extraction_external_path "audio/mpeg" " "
    { St.empty with jobs := [{ id := "j1", documentId := "d1", orgId := "o1", currentPhase := "ingestion", status := JobStatus.processing }] }
    "j1" "d1" "gdrive://x" 0 none none false 0
    { id := "j1", documentId := "d1", orgId := "o1", currentPhase := "ingestion", status := JobStatus.processing }
    rfl (by decide) (Or.inr (by decide))).1

/-- C2 counterexample: the kg_ingest handler does not fetch the owning
pipeline_job before working. On a state whose only job is cancelled it still
inserts a processing phase row, marks it failed, and overwrites the
cancelled job to failed -- instead of returning skipped with no state
change. -/
theorem C2_counterexample_kg_ignores_cancelled_job :
    (({ St.empty with jobs := [{ id := "job1", documentId := "doc1", orgId := "org1", currentPhase := "kg_ingest", status := JobStatus.cancelled }] } : St).jobs.map
          (fun j => j.status)) = [JobStatus.cancelled]
    ∧ (ingestKgTask (fun _ => none)
        { St.empty with jobs := [{ id := "job1", documentId := "doc1", orgId := "org1", currentPhase := "kg_ingest", status := JobStatus.cancelled }] }
        "job1" "doc1" 0 none "org1" 0).2.status = "failed"
    ∧ ((ingestKgTask (fun _ => none)
        { St.empty with jobs := [{ id := "job1", documentId := "doc1", orgId := "org1", currentPhase := "kg_ingest", status := JobStatus.cancelled }] }
        "job1" "doc1" 0 none "org1" 0).1.phases.map (fun p => (p.phase, p.status)))
      = [("kg_ingest", PhaseStatus.failed)]
    ∧ ((ingestKgTask (fun _ => none)
        { St.empty with jobs := [{ id := "job1", documentId := "doc1", orgId := "org1", currentPhase := "kg_ingest", status := JobStatus.cancelled }] }
        "job1" "doc1" 0 none "org1" 0).1.jobs.map (fun j => j.status))
      = [JobStatus.failed] := by
  refine ⟨rfl, rfl, rfl, rfl⟩

/-- C2 (amended): only the combined ingest_extract handler performs the
defensive pipeline_job check — a missing or cancelled job row short-circuits
to a skipped result with the state unchanged, before any phase row is
inserted — while the extraction, chunking and kg_ingest handlers consult no
job row: on every state, whatever the jobs table holds, each of them inserts
its processing phase row (logged directly after the pre-existing writes) and
returns a result that is never skipped. -/
theorem C2_job_check_only_in_ingest_extract
    (download extract : Except PyExn String) (load : Except PyExn Unit)
    (extracted loadText : Except PyExn String) (contexts : ℕ → String)
    (addEpisode : ℕ → Option String) (st : St)
    (pipelineJobId documentId sourceLocation rawLocation textLocation sourceName
      clerkOrgId : String) (retryCount : ℕ)
    (parentIngestPhaseId parentExtractPhaseId parentPhaseId : Option ℕ)
    (storeRaw : Bool) (now : ℚ) :
    (st.jobs.find? (fun j => j.id == pipelineJobId) = none →
      ingestExtractTask download extract st pipelineJobId documentId sourceLocation
          retryCount parentIngestPhaseId parentExtractPhaseId storeRaw now
        = (st, { status := "skipped", reason := some "pipeline_job_not_found" }))
    ∧ (∀ j, st.jobs.find? (fun j => j.id == pipelineJobId) = some j →
        j.status = JobStatus.cancelled →
        ingestExtractTask download extract st pipelineJobId documentId sourceLocation
            retryCount parentIngestPhaseId parentExtractPhaseId storeRaw now
          = (st, { status := "skipped", reason := some "pipeline_job_cancelled" }))
    ∧ ((extractTask load extracted st pipelineJobId documentId rawLocation retryCount
          parentPhaseId now).1.phaseWrites.take (st.phaseWrites.length + 1)
        = st.phaseWrites ++ [{ phaseId := st.nextPhaseId, status := PhaseStatus.processing, errorType := none }]
      ∧ (extractTask load extracted st pipelineJobId documentId rawLocation retryCount
          parentPhaseId now).2.status ≠ "skipped")
    ∧ ((chunkTask loadText contexts st pipelineJobId documentId textLocation retryCount
          parentPhaseId sourceName now).1.phaseWrites.take (st.phaseWrites.length + 1)
        = st.phaseWrites ++ [{ phaseId := st.nextPhaseId, status := PhaseStatus.processing, errorType := none }]
      ∧ (chunkTask loadText contexts st pipelineJobId documentId textLocation retryCount
          parentPhaseId sourceName now).2.status ≠ "skipped")
    ∧ ((ingestKgTask addEpisode st pipelineJobId documentId retryCount parentPhaseId
          clerkOrgId now).1.phaseWrites.take (st.phaseWrites.length + 1)
        = st.phaseWrites ++ [{ phaseId := st.nextPhaseId, status := PhaseStatus.processing, errorType := none }]
      ∧ (ingestKgTask addEpisode st pipelineJobId documentId retryCount parentPhaseId
          clerkOrgId now).2.status ≠ "skipped") := by
  refine ⟨?_, ?_,
    extractTask_proceeds load extracted st pipelineJobId documentId rawLocation
      retryCount parentPhaseId now,
    chunkTask_proceeds loadText contexts st pipelineJobId documentId textLocation
      retryCount parentPhaseId sourceName now,
    ingestKgTask_proceeds addEpisode st pipelineJobId documentId retryCount
      parentPhaseId clerkOrgId now⟩
  · intro hfind
    unfold ingestExtractTask ingestExtractInner
    rw [hfind]
  · intro j hfind hcanc
    unfold ingestExtractTask ingestExtractInner
    rw [hfind]
    have hbeq : (j.status == JobStatus.cancelled) = true := by
      rw [hcanc]
      rfl
    simp only [hbeq, if_true]

/-- C2 witness: the theorem at a state with no job row and at a state whose
job row is cancelled. -/
theorem C2_job_check_only_in_ingest_extract_witness :
    (St.empty.jobs.find? (fun j => j.id == "j") = none
      ∧ ingestExtractTask (.ok "application/pdf") (.ok "text") St.empty "j" "d"
          "gdrive://x" 0 none none false 0
        = (St.empty, { status := "skipped", reason := some "pipeline_job_not_found" }))
    ∧ (({ St.empty with jobs := [{ id := "j", documentId := "d", orgId := "o", currentPhase := "ingestion", status := JobStatus.cancelled }] } : St).jobs.find?
            (fun j => j.id == "j")
          = some { id := "j", documentId := "d", orgId := "o", currentPhase := "ingestion", status := JobStatus.cancelled }
      ∧ ingestExtractTask (.ok "application/pdf") (.ok "text")
          { St.empty with jobs := [{ id := "j", documentId := "d", orgId := "o", currentPhase := "ingestion", status := JobStatus.cancelled }] }
          "j" "d" "gdrive://x" 0 none none false 0
        = ({ St.empty with jobs := [{ id := "j", documentId := "d", orgId := "o", currentPhase := "ingestion", status := JobStatus.cancelled }] },
           { status := "skipped", reason := some "pipeline_job_cancelled" })) := by
  constructor
  · exact ⟨rfl, (C2_job_check_only_in_ingest_extract (.ok "application/pdf") (.ok "text")
      (.ok ()) (.ok "text") (.ok "text") (fun _ => "") (fun _ => none) St.empty
      "j" "d" "gdrive://x" "r" "t" "s" "o" 0 none none none false 0).1 rfl⟩
  · exact ⟨rfl, (C2_job_check_only_in_ingest_extract (.ok "application/pdf") (.ok "text")
      (.ok ()) (.ok "text") (.ok "text") (fun _ => "") (fun _ => none) _
      "j" "d" "gdrive://x" "r" "t" "s" "o" 0 none none none false 0).2.1 _ rfl rfl⟩

/-- C9 counterexample: supplying both raw_location and source_location does
not raise; the submission succeeds, enqueues extraction, and simply ignores
source_location, because validation is per source platform, not
exactly-one-location. -/
theorem C9_counterexample_both_locations_accepted :
    (enqueuePipelineJob St.empty "doc1" "manual_upload" "org1" "file.pdf" "pdf"
        (some "raw_documents/doc1.pdf") (some "gdrive://abc") false 0).2
      = .ok ("0", "rq-extraction")
    ∧ ∀ e : PyExn,
        (enqueuePipelineJob St.empty "doc1" "manual_upload" "org1" "file.pdf" "pdf"
          (some "raw_documents/doc1.pdf") (some "gdrive://abc") false 0).2
        ≠ .error e := by
  constructor
  · rfl
  · intro e h
    rw [show (enqueuePipelineJob St.empty "doc1" "manual_upload" "org1" "file.pdf" "pdf"
        (some "raw_documents/doc1.pdf") (some "gdrive://abc") false 0).2
      = .ok ("0", "rq-extraction") from rfl] at h
    exact Except.noConfusion h

/-- C9 (amended): the submission validates the location required by the
source platform: a manual upload with a falsy raw_location, or an external
source with a falsy source_location, raises ValueError and neither creates
nor enqueues a first phase (the pipeline_job row has already been inserted);
supplying both locations is accepted and the unused one is ignored. -/
theorem C9_required_location_validation (st : St)
    (documentId sourcePlatform clerkOrgId sourceName fileType : String)
    (rawLocation sourceLocation : Option String) (storeRaw : Bool) (now : ℚ) :
    (sourcePlatform = "manual_upload" → strFalsy rawLocation = true →
      (enqueuePipelineJob st documentId sourcePlatform clerkOrgId sourceName fileType
          rawLocation sourceLocation storeRaw now).2
        = .error { name := "ValueError", msg := "raw_location required for manual uploads" }
      ∧ (enqueuePipelineJob st documentId sourcePlatform clerkOrgId sourceName fileType
          rawLocation sourceLocation storeRaw now).1.phases = st.phases
      ∧ (enqueuePipelineJob st documentId sourcePlatform clerkOrgId sourceName fileType
          rawLocation sourceLocation storeRaw now).1.queueCalls = st.queueCalls)
    ∧ (sourcePlatform ≠ "manual_upload" → strFalsy sourceLocation = true →
      (enqueuePipelineJob st documentId sourcePlatform clerkOrgId sourceName fileType
          rawLocation sourceLocation storeRaw now).2
        = .error { name := "ValueError",
                   msg := "source_location required for external sources" }
      ∧ (enqueuePipelineJob st documentId sourcePlatform clerkOrgId sourceName fileType
          rawLocation sourceLocation storeRaw now).1.phases = st.phases
      ∧ (enqueuePipelineJob st documentId sourcePlatform clerkOrgId sourceName fileType
          rawLocation sourceLocation storeRaw now).1.queueCalls = st.queueCalls) := by
  constructor
  · intro hplat hraw
    have hbeq : (sourcePlatform == "manual_upload") = true := by
      rw [hplat]
      rfl
    simp [enqueuePipelineJob, createPipelineJob, hbeq, hraw]
  · intro hplat hsrc
    have hbeq : (sourcePlatform == "manual_upload") = false := by
      cases h : sourcePlatform == "manual_upload"
      · rfl
      · exact absurd (by simpa using h) hplat
    simp [enqueuePipelineJob, createPipelineJob, hbeq, hsrc]

/-- C9 witness: the validation theorem applied to a manual upload with no
raw_location and to an external source with no source_location. -/
theorem C9_required_location_validation_witness :
    ("manual_upload" = "manual_upload" ∧ strFalsy (none : Option String) = true
      ∧ (enqueuePipelineJob St.empty "d" "manual_upload" "o" "n" "pdf" none
          (some "gdrive://x") false 0).2
        = .error { name := "ValueError", msg := "raw_location required for manual uploads" })
    ∧ ("google_drive" ≠ "manual_upload" ∧ strFalsy (some "") = true
      ∧ (enqueuePipelineJob St.empty "d" "google_drive" "o" "n" "pdf"
          (some "raw_documents/d.pdf") (some "") false 0).2
        = .error { name := "ValueError",
                   msg := "source_location required for external sources" }) := by
  constructor
  · exact ⟨rfl, rfl,
      ((C9_required_location_validation St.empty "d" "manual_upload" "o" "n" "pdf" none
        (some "gdrive://x") false 0).1 rfl rfl).1⟩
  · refine ⟨by decide, rfl, ?_⟩
    exact ((C9_required_location_validation St.empty "d" "google_drive" "o" "n" "pdf"
      (some "raw_documents/d.pdf") (some "") false 0).2 (by decide) rfl).1

/-- C7 counterexample: a non-empty document shorter than 4 characters has an
estimated token count of 0, and constructing the single pydantic Chunk then
fails its token_count gt=0 field constraint, so chunk_document raises a
ValidationError instead of returning one chunk. -/
theorem C7_counterexample_tiny_text :
    pyStrip "hi" ≠ "" ∧ estimateTokens (pyStrip "hi") < 800
    ∧ (chunkDocument 800 100 "hi" (some "T") (fun _ => "")).1
        = .error { name := "ValidationError", module := "pydantic",
                   msg := "token_count: Input should be greater than 0" } := by
  refine ⟨by decide, by decide, by rfl⟩

/-- C7 (amended): for every input whose stripped text is non-empty, at least
4 characters long (estimated tokens at least 1) and below the 800-token
budget, with a non-empty title, chunk_document makes no LLM call and returns
exactly one chunk whose context is the title, token_count the estimated
total, chunk_index 0 and character span [0, length of the stripped text). -/
theorem C7_short_document_single_chunk (text title : String) (contexts : ℕ → String)
    (h1 : pyStrip text ≠ "") (h2 : 4 ≤ (pyStrip text).length)
    (h3 : estimateTokens (pyStrip text) < 800) (h4 : title ≠ "") :
    chunkDocument 800 100 text (some title) contexts
      = (.ok [{ text := pyStrip text, context := title, chunkIndex := 0, charStart := 0,
                charEnd := ((pyStrip text).length : ℤ),
                tokenCount := estimateTokens (pyStrip text) }], 0) := by
  have hlen : 0 < (pyStrip text).length := by omega
  have hcE : ¬ (((pyStrip text).length : ℤ) ≤ 0) := by exact_mod_cast not_le.mpr hlen
  have htok : ¬ (estimateTokens (pyStrip text) = 0) := by
    unfold estimateTokens
    omega
  simp only [chunkDocument, if_neg h1, if_pos h3, shortContext, if_neg h4, mkChunk,
    if_neg (show ¬ ((0 : ℤ) < 0) by norm_num), if_neg hcE, if_neg htok, Except.map]

/-- C7 witness: the short-document theorem applied to a concrete 31-character
text. -/
theorem C7_short_document_witness :
    pyStrip "A small document about nothing." ≠ ""
    ∧ 4 ≤ (pyStrip "A small document about nothing.").length
    ∧ estimateTokens (pyStrip "A small document about nothing.") < 800
    ∧ "Notes" ≠ ""
    ∧ chunkDocument 800 100 "A small document about nothing." (some "Notes") (fun _ => "")
      = (.ok [{ text := pyStrip "A small document about nothing.", context := "Notes",
                chunkIndex := 0, charStart := 0,
                charEnd := ((pyStrip "A small document about nothing.").length : ℤ),
                tokenCount := estimateTokens (pyStrip "A small document about nothing.") }],
         0) :=
  ⟨by decide, by decide, by decide, by decide,
   C7_short_document_single_chunk "A small document about nothing." "Notes" (fun _ => "")
     (by decide) (by decide) (by decide) (by decide)⟩

/-- C8: the context-generation wave loop always terminates: the run makes at
most numWaves x 11 wave attempts (each wave fails at most 10 consecutive
times before the 11th failure re-raises), a failed attempt is always
followed by a retry of the same wave, every failure that is retried pauses
for the Retry-After hint (60 s when absent), and the re-raised
AnthropicRateLimitError is classified retryable by the retry policy. -/
theorem C8_wave_loop_terminates (numWaves : ℕ) (oracle : ℕ → Option (Option ℕ)) :
    (runWaves numWaves oracle 0 0 0).attempts ≤ numWaves * 11
    ∧ traceAdjacencyOk (runWaves numWaves oracle 0 0 0).trace = true
    ∧ (runWaves numWaves oracle 0 0 0).totalWait
        = ((((runWaves numWaves oracle 0 0 0).trace.dropLast).filterMap
            (fun e => e.2)).map wavePause).sum
    ∧ (∀ ra : Option ℕ,
        isRetryableError
          { name := "AnthropicRateLimitError",
            module := "mentorfy.services.chunking_service", msg := "",
            retryAfter := ra } none = true) := by
  have h := runWaves_spec numWaves oracle (numWaves * 11 + 10) 0 0 0 (by omega) (by omega)
  refine ⟨by have h1 := h.1; omega, h.2.2.1, h.2.2.2, fun ra => ?_⟩
  simp [isRetryableError, NON_RETRYABLE_ERRORS, fullErrorType, clientError4xx]

/-- C4: is_retryable_error follows the spec taxonomy. It returns False exactly
when the exception's class name (bare or module-qualified) is one of the
non-retryable names (ValidationError, ValueError, FileNotFoundError,
InvalidFileFormat, AuthenticationError, PermissionDenied) or the status code is
4xx other than 429; in every other case, including the listed retryable names
(ConnectionError, the Timeout family, rate-limit errors, ServiceUnavailable,
PartialIngestError), any 5xx status, and unknown errors, it returns True. -/
theorem C4_retry_classification (e : PyExn) (sc : Option Nat) :
    (isRetryableError e sc = false ↔
      (NON_RETRYABLE_ERRORS.contains e.name = true
        ∨ NON_RETRYABLE_ERRORS.contains (fullErrorType e) = true
        ∨ clientError4xx sc = true))
    ∧ (∀ nm ∈ ["ConnectionError", "Timeout", "ReadTimeout", "TimeoutError",
               "RateLimitError", "AnthropicRateLimitError", "ServiceUnavailable",
               "PartialIngestError"],
        isRetryableError { name := nm, msg := e.msg, retryAfter := e.retryAfter } none = true)
    ∧ (serverError5xx sc = true → clientError4xx sc = false →
        NON_RETRYABLE_ERRORS.contains e.name = false →
        NON_RETRYABLE_ERRORS.contains (fullErrorType e) = false →
        isRetryableError e sc = true) := by
  refine ⟨?_, ?_, ?_⟩
  · unfold isRetryableError
    split_ifs with h1 h2 <;>
      simp_all [Bool.or_eq_true, not_or] <;> tauto
  · intro nm hnm
    fin_cases hnm <;>
      simp [isRetryableError, NON_RETRYABLE_ERRORS, fullErrorType, clientError4xx]
  · intro h5 h4 hn hf
    unfold isRetryableError
    split_ifs with h1 h2 <;> simp_all

/-- C4 witness: a concrete 503 ServiceUnavailable is retryable and a concrete
404 ValueError is not, instantiating the classification theorem. -/
theorem C4_retry_classification_witness :
    isRetryableError { name := "ServiceUnavailable", module := "x" } (some 503) = true
      ∧ isRetryableError { name := "ValueError" } (some 404) = false := by
  constructor
  · exact (C4_retry_classification { name := "ServiceUnavailable", module := "x" }
      (some 503)).2.2 (by decide) (by decide) (by decide) (by decide)
  · exact ((C4_retry_classification { name := "ValueError" } (some 404)).1).2
      (Or.inl (by decide))
